import Mathlib

/-!
# Baralga web client: formatter, CSV export, XML backup and stores

A shallow embedding of `web/src/formatter.js`, `web/src/export_csv.js`,
`web/src/xml_backup.js` and `web/src/stores.js`.

Conventions of the embedding.

* JavaScript numbers that hold integers are `Int` (or `Nat` where the source
  value cannot be negative); the 2^53 precision limit of doubles is not modelled.
* A `Moment` is a valid moment.js instant in local mode: the instant itself in
  milliseconds since 1970-01-01T00:00Z, and the offset of local time from UTC
  that the environment's time zone has at that instant. Differences are taken
  between instants (elapsed time); calendar and clock fields are read from the
  local time. Two moments may carry different offsets, as around a
  daylight-saving change.
* A moment.js `Duration` built from milliseconds (the only kind this program
  builds) has no separate day or month part, so it is its millisecond count.
* Library code that is not part of the repository (moment.js, the DOM, the
  svelte store) is embedded from its documented behaviour, only as far as the
  program uses it; the XML parser, the timestamp parser and the JSON encoder
  are parameters.
-/

namespace Baralga

/-! ## JavaScript numbers and strings -/

/-- Embeds `Number.prototype.toString()` of an integer. -/
def numberToString (n : Int) : String :=
  if n < 0 then "-" ++ Nat.repr n.natAbs else Nat.repr n.natAbs

/-- Embeds `String.prototype.padStart(targetLength, padChar)` with a one-character pad. -/
def padStart (s : String) (targetLength : Nat) (padChar : Char) : String :=
  String.mk (List.replicate (targetLength - s.length) padChar) ++ s

/-- Embeds `Array.prototype.join(sep)` on an array of strings. -/
def join (sep : String) : List String → String
  | [] => ""
  | [x] => x
  | x :: y :: rest => x ++ sep ++ join sep (y :: rest)

/-- How `join` renders an element that may be `undefined` or `null`. -/
def joinField (field : Option String) : String :=
  field.getD ""

/-! ## moment.js durations -/

/-- A moment.js duration created from a millisecond count. -/
structure Duration where
  milliseconds : Int
deriving DecidableEq, Repr

namespace Duration

/-- Embeds `moment.duration(ms)`. -/
def ofMilliseconds (ms : Int) : Duration := ⟨ms⟩

/-- Embeds `moment.duration({hours: h, minutes: m})`: both parts are folded into the
millisecond count. -/
def ofHoursMinutes (h m : Int) : Duration := ⟨m * 60000 + h * (1000 * 60 * 60)⟩

/-- moment's `absFloor(a / b)`: the quotient rounded toward zero. -/
def absFloorDiv (a b : Int) : Int := Int.tdiv a b

/-- Embeds `duration.minutes()`: the minutes part left after bubbling (JavaScript `%`). -/
def minutes (d : Duration) : Int :=
  Int.tmod (absFloorDiv (absFloorDiv d.milliseconds 1000) 60) 60

/-- Embeds `duration.hours()`: the hours part left after bubbling whole days away. -/
def hours (d : Duration) : Int :=
  Int.tmod (absFloorDiv (absFloorDiv (absFloorDiv d.milliseconds 1000) 60) 60) 24

/-- Embeds `total.add(other)`. -/
def add (total other : Duration) : Duration :=
  ⟨total.milliseconds + other.milliseconds⟩

end Duration

/-! ## moment.js instants -/

/-- A valid moment in local mode: `valueOf` is the instant in milliseconds
since 1970-01-01T00:00Z, as `m.valueOf()` returns it, and `utcOffset` the
offset of local time from UTC in minutes at that instant, as `m.utcOffset()`
returns it. -/
structure Moment where
  valueOf : Int
  utcOffset : Int
deriving DecidableEq, Repr

/-- Days since 1970-01-01 of a proleptic Gregorian date (`month` is 1-based). -/
def daysFromCivil (year : Int) (month day : Int) : Int :=
  let y := if month ≤ 2 then year - 1 else year
  let era := y / 400
  let yoe := y - era * 400
  let mp := if month > 2 then month - 3 else month + 9
  let doy := (153 * mp + 2) / 5 + day - 1
  let doe := yoe * 365 + yoe / 4 - yoe / 100 + doy
  era * 146097 + doe - 719468

/-- Proleptic Gregorian date (year, 1-based month, day) of a day count. -/
def civilFromDays (days : Int) : Int × Int × Int :=
  let z := days + 719468
  let era := z / 146097
  let doe := z - era * 146097
  let yoe := (doe - doe / 1460 + doe / 36524 - doe / 146096) / 365
  let y := yoe + era * 400
  let doy := doe - (365 * yoe + yoe / 4 - yoe / 100)
  let mp := (5 * doy + 2) / 153
  let d := doy - (153 * mp + 2) / 5 + 1
  let m := if mp < 10 then mp + 3 else mp - 9
  (if m ≤ 2 then y + 1 else y, m, d)

namespace Moment

/-- The local time of the moment: milliseconds since 1970-01-01T00:00 on the
local wall clock, from which the date getters read the fields. -/
def localTime (m : Moment) : Int := m.valueOf + m.utcOffset * 60000

/-- Whole local days since 1970-01-01. -/
def dayNumber (m : Moment) : Int := m.localTime / 86400000

/-- Milliseconds since the start of the local day. -/
def msOfDay (m : Moment) : Int := m.localTime % 86400000

/-- Embeds `m.year()`. -/
def year (m : Moment) : Int := (civilFromDays m.dayNumber).1

/-- Embeds `m.month()`, 0-based as in moment. -/
def month (m : Moment) : Int := (civilFromDays m.dayNumber).2.1 - 1

/-- Embeds `m.date()`: the day of the month. -/
def date (m : Moment) : Int := (civilFromDays m.dayNumber).2.2

/-- Embeds `m.hours()`. -/
def hours (m : Moment) : Int := m.msOfDay / 3600000

/-- Embeds `m.minutes()`. -/
def minutes (m : Moment) : Int := m.msOfDay / 60000 % 60

/-- Embeds `m.seconds()`. -/
def seconds (m : Moment) : Int := m.msOfDay / 1000 % 60

/-- Embeds `m.quarter()`: `Math.ceil((m.month() + 1) / 3)`. -/
def quarter (m : Moment) : Int := (m.month + 1 + 2) / 3

/-- Embeds `m.dayOfYear()`. -/
def dayOfYear (m : Moment) : Int := m.dayNumber - daysFromCivil m.year 1 1 + 1

/-- Embeds `to.diff(from)`: the elapsed milliseconds from the instant `from` to
the instant `to`, whatever their zone offsets. -/
def diff («to» «from» : Moment) : Int := «to».valueOf - «from».valueOf

end Moment

/-- Day of the week (0 = Sunday) of a day count; 1970-01-01 was a Thursday. -/
def weekdayOfDays (days : Int) : Int := (days + 4) % 7

/-- Embeds `daysInYear(year)`. -/
def daysInYear (year : Int) : Int :=
  if (year % 4 = 0 ∧ year % 100 ≠ 0) ∨ year % 400 = 0 then 366 else 365

/-- moment's `firstWeekOffset(year, dow, doy)`, which returns
`-fwdlw + fwd - 1`. -/
def firstWeekOffset (year dow doy : Int) : Int :=
  let fwd := 7 + dow - doy
  let fwdlw := (7 + weekdayOfDays (daysFromCivil year 1 fwd) - dow) % 7
  fwd - fwdlw - 1

/-- moment's `weeksInYear(year, dow, doy)`. -/
def weeksInYear (year dow doy : Int) : Int :=
  (daysInYear year - firstWeekOffset year dow doy + firstWeekOffset (year + 1) dow doy) / 7

/-- moment's `weekOfYear(mom, dow, doy).week`. -/
def weekOfYear (m : Moment) (dow doy : Int) : Int :=
  let weekOffset := firstWeekOffset m.year dow doy
  let week := (m.dayOfYear - weekOffset - 1) / 7 + 1
  if week < 1 then week + weeksInYear (m.year - 1) dow doy
  else if week > weeksInYear m.year dow doy then week - weeksInYear m.year dow doy
  else week

/-- Embeds `m.week()` in the default `en` locale (weeks start on Sunday, the week
holding January 1st is the first). -/
def Moment.week (m : Moment) : Int := weekOfYear m 0 6

/-- Embeds `m.eraYear()` in the `en` locale: the year itself from 0001-01-01 on (Anno
Domini), and `1 - year` before (Before Christ). -/
def Moment.eraYear (m : Moment) : Int :=
  if daysFromCivil 1 1 1 ≤ m.dayNumber then (m.year - 1) * 1 + 1
  else (m.year - 0) * (-1) + 1

/-- moment's `zeroFill(number, targetLength)` without forced sign. -/
def zeroFill (number : Int) (targetLength : Nat) : String :=
  let absNumber := Nat.repr number.natAbs
  (if number ≥ 0 then "" else "-") ++
    String.mk (List.replicate (targetLength - absNumber.length) '0') ++ absNumber

/-- The `ordinal` function of moment's `en` locale. -/
def ordinal (number : Int) : String :=
  let b := number % 10
  let output :=
    if Int.tdiv (number % 100) 10 = 1 then "th"
    else if b = 1 then "st"
    else if b = 2 then "nd"
    else if b = 3 then "rd"
    else "th"
  numberToString number ++ output

/-- Month names of moment's `en` locale, indexed by `m.month()`. -/
def monthName (month : Int) : String :=
  match month with
  | 0 => "January" | 1 => "February" | 2 => "March" | 3 => "April"
  | 4 => "May" | 5 => "June" | 6 => "July" | 7 => "August"
  | 8 => "September" | 9 => "October" | 10 => "November" | _ => "December"

/-- The moment format tokens used by the program's format strings. -/
inductive Token where
  | YYYY | yyyy | Q | Qo | MM | MMMM | DD | HH | mm | ss | w | wo
  | literal (c : Char)
deriving DecidableEq, Repr

/-- Splits a format string the way moment's `formattingTokens` expression does,
for the tokens of `Token`; any other character is a literal. -/
def tokenize : List Char → List Token
  | 'M' :: 'M' :: 'M' :: 'M' :: rest => Token.MMMM :: tokenize rest
  | 'M' :: 'M' :: rest => Token.MM :: tokenize rest
  | 'D' :: 'D' :: rest => Token.DD :: tokenize rest
  | 'w' :: 'o' :: rest => Token.wo :: tokenize rest
  | 'w' :: rest => Token.w :: tokenize rest
  | 'Q' :: 'o' :: rest => Token.Qo :: tokenize rest
  | 'Q' :: rest => Token.Q :: tokenize rest
  | 'Y' :: 'Y' :: 'Y' :: 'Y' :: rest => Token.YYYY :: tokenize rest
  | 'y' :: 'y' :: 'y' :: 'y' :: rest => Token.yyyy :: tokenize rest
  | 'H' :: 'H' :: rest => Token.HH :: tokenize rest
  | 'm' :: 'm' :: rest => Token.mm :: tokenize rest
  | 's' :: 's' :: rest => Token.ss :: tokenize rest
  | c :: rest => Token.literal c :: tokenize rest
  | [] => []

/-- What one token prints for a moment. -/
def Token.render (m : Moment) : Token → String
  | .YYYY => zeroFill m.year 4
  | .yyyy => zeroFill m.eraYear 4
  | .Q => numberToString m.quarter
  | .Qo => ordinal m.quarter
  | .MM => zeroFill (m.month + 1) 2
  | .MMMM => monthName m.month
  | .DD => zeroFill m.date 2
  | .HH => zeroFill m.hours 2
  | .mm => zeroFill m.minutes 2
  | .ss => zeroFill m.seconds 2
  | .w => numberToString m.week
  | .wo => ordinal m.week
  | .literal c => String.singleton c

/-- Embeds `m.format(fmt)`. -/
def Moment.format (m : Moment) (fmt : String) : String :=
  String.join ((tokenize fmt.data).map (Token.render m))

/-! ## `formatter.js` -/

/-- Embeds `formatDuration(duration)`. -/
def formatDuration (duration : Duration) : String :=
  padStart (numberToString duration.hours) 2 '0' ++ ":" ++
    padStart (numberToString duration.minutes) 2 '0'

/-- A filter as `asFilterLabel` and `applyFilter` read it. -/
structure Filter where
  timespan : String
  «from» : Moment
  «to» : Moment
deriving DecidableEq, Repr

/-- Embeds `asFilterLabel(filter)`. -/
def asFilterLabel (filter : Filter) : String :=
  if filter.timespan = "year" then
    filter.from.format "YYYY"
  else if filter.timespan = "quarter" then
    filter.from.format "Qo" ++ " Quarter " ++ filter.from.format "YYYY"
  else if filter.timespan = "month" then
    filter.from.format "MMMM YYYY"
  else if filter.timespan = "week" then
    filter.from.format "wo" ++ " Week " ++ filter.from.format "MMMM YYYY"
  else
    "?"

/-- Embeds `asFormattedDuration(from, to)`. -/
def asFormattedDuration («from» «to» : Moment) : String :=
  formatDuration (Duration.ofMilliseconds («to».diff «from»))

/-! ## Data model -/

/-- A project. `description` and `active` may be absent (`undefined`). -/
structure Project where
  id : String
  name : String
  description : Option String
  active : Option Bool
deriving DecidableEq, Repr

/-- An activity. `description` and `project` may be absent (`undefined`). -/
structure Activity where
  id : String
  description : Option String
  startTime : Moment
  endTime : Moment
  project : Option Project
deriving DecidableEq, Repr

/-- A `Blob`: its parts in order and its MIME type. -/
structure Blob where
  parts : List String
  type : String
deriving DecidableEq, Repr

/-- Embeds `blob.text()`: the parts one after the other. -/
def Blob.text (blob : Blob) : String := String.join blob.parts

/-! ## `export_csv.js` -/

/-- The constant `CSV_HEADER`. -/
def CSV_HEADER : String :=
  join ";" ["Date", "Start", "End", "Duration", "Project", "Description"] ++ "\n"

/-- The row `createCsv` maps one activity to; `none` when reading
`activity.project.name` throws because the project is `undefined`. -/
def csvRow (activity : Activity) : Option String := do
  let project ← activity.project
  pure (join ";" [
      activity.startTime.format "DD.MM.YYYY",
      activity.startTime.format "HH:mm",
      activity.endTime.format "HH:mm",
      asFormattedDuration activity.startTime activity.endTime,
      project.name,
      joinField activity.description
    ] ++ "\n")

/-- Embeds `createCsv(activities)`; `none` when it throws. -/
def createCsv (activities : List Activity) : Option Blob := do
  let activitiesRows ← activities.mapM csvRow
  pure { parts := CSV_HEADER :: activitiesRows, type := "text/csv;charset=utf-8" }

/-! ## The DOM, as far as `xml_backup.js` uses it -/

/-- A DOM node: an element with its attributes and children, or a text node. -/
inductive Node where
  | element (tagName : String) (attributes : List (String × String)) (childNodes : List Node)
  | text (data : String)
deriving Repr

/-- An XML document, given by its root element. -/
structure Document where
  documentElement : Node
deriving Repr

mutual
/-- The elements named `name` in the subtree of a node, the node included, in
tree order. -/
def Node.elementsNamed (name : String) : Node → List Node
  | .element tagName attributes childNodes =>
    (if tagName = name then [Node.element tagName attributes childNodes] else []) ++
      Node.elementsNamedIn name childNodes
  | .text _ => []
/-- The elements named `name` in the subtrees of a list of nodes. -/
def Node.elementsNamedIn (name : String) : List Node → List Node
  | [] => []
  | node :: rest => Node.elementsNamed name node ++ Node.elementsNamedIn name rest
end

/-- Embeds `document.getElementsByTagName(name)`. -/
def Document.getElementsByTagName (doc : Document) (name : String) : List Node :=
  doc.documentElement.elementsNamed name

/-- Embeds `element.childNodes`. -/
def Node.childNodes : Node → List Node
  | .element _ _ childNodes => childNodes
  | .text _ => []

/-- Embeds `element.tagName`; `none` for a text node. -/
def Node.tagName : Node → Option String
  | .element tagName _ _ => some tagName
  | .text _ => none

/-- Embeds `element.getElementsByTagName(name)`: the descendants named `name`. -/
def Node.getElementsByTagName (element : Node) (name : String) : List Node :=
  Node.elementsNamedIn name element.childNodes

/-- Embeds `element.attributes[name].nodeValue`; `none` when the attribute is missing
(reading `nodeValue` of `undefined` throws). -/
def Node.attribute : Node → String → Option String
  | .element _ attributes _, name => (attributes.find? (fun a => a.1 = name)).map (·.2)
  | .text _, _ => none

/-- One character of text content in XML serialization. -/
def escapeTextChar (c : Char) : List Char :=
  if c = '&' then "&amp;".data
  else if c = '<' then "&lt;".data
  else if c = '>' then "&gt;".data
  else [c]

/-- XML serialization of text content. -/
def escapeText (data : String) : String :=
  String.mk (data.data.flatMap escapeTextChar)

/-- One character of an attribute value in XML serialization. -/
def escapeAttributeChar (c : Char) : List Char :=
  if c = '&' then "&amp;".data
  else if c = Char.ofNat 34 then "&quot;".data
  else if c = '<' then "&lt;".data
  else if c = '>' then "&gt;".data
  else [c]

/-- XML serialization of an attribute value. -/
def escapeAttribute (value : String) : String :=
  String.mk (value.data.flatMap escapeAttributeChar)

/-- XML serialization of an attribute list. -/
def serializeAttributes : List (String × String) → String
  | [] => ""
  | (name, value) :: rest =>
    " " ++ name ++ "=\"" ++ escapeAttribute value ++ "\"" ++ serializeAttributes rest

mutual
/-- XML serialization of a node. -/
def Node.serialize : Node → String
  | .text data => escapeText data
  | .element tagName attributes [] => "<" ++ tagName ++ serializeAttributes attributes ++ "/>"
  | .element tagName attributes (child :: rest) =>
    "<" ++ tagName ++ serializeAttributes attributes ++ ">" ++
      Node.serializeAll (child :: rest) ++ "</" ++ tagName ++ ">"
/-- XML serialization of a list of nodes. -/
def Node.serializeAll : List Node → String
  | [] => ""
  | node :: rest => Node.serialize node ++ Node.serializeAll rest
end

/-- Embeds `element.innerHTML`: the serialization of the children. -/
def Node.innerHTML (element : Node) : String :=
  Node.serializeAll element.childNodes

/-- Embeds `new XMLSerializer().serializeToString(xmlDoc)`. -/
def serializeToString (xmlDoc : Document) : String :=
  xmlDoc.documentElement.serialize

/-! ## `xml_backup.js` -/

/-- What `readXml` returns. -/
structure XmlResult where
  status : String
  activities : List Activity
  projects : List Project
deriving DecidableEq, Repr

/-- The body of the first loop of `readXml`; `none` when it throws. -/
def readProject (projectElement : Node) : Option Project := do
  let id ← projectElement.attribute "id"
  let title ← (projectElement.getElementsByTagName "title").head?
  let description ← (projectElement.getElementsByTagName "description").head?
  pure { id := id, name := title.innerHTML, description := some description.innerHTML,
         active := none }

/-- The body of the second loop of `readXml`; `none` when it throws.
`momentParse s fmt` is `moment(s, fmt)`. -/
def readActivity (momentParse : String → String → Moment) (projects : List Project)
    (activityElement : Node) : Option Activity := do
  let start ← activityElement.attribute "start"
  let startTime := momentParse start "yyyy-MM-DDTHH:mm"
  let «end» ← activityElement.attribute "end"
  let endTime := momentParse «end» "yyyy-MM-DDTHH:mm"
  let projectId ← activityElement.attribute "projectReference"
  let project := projects.find? (fun project => project.id = projectId)
  let id ← activityElement.attribute "id"
  pure { id := id, description := none, startTime := startTime, endTime := endTime,
         project := project }

/-- The `try` block of `readXml`; `none` when it throws.
`parseFromString s type` is `new DOMParser().parseFromString(s, type)`. -/
def readXmlTry (parseFromString : String → String → Document)
    (momentParse : String → String → Moment) (xmlBackupContents : String) :
    Option XmlResult := do
  let xmlDoc := parseFromString xmlBackupContents "text/xml"
  let errElemCount := (xmlDoc.getElementsByTagName "parsererror").length
  if errElemCount > 0 then
    none
  else
    let projects ← (xmlDoc.getElementsByTagName "project").mapM readProject
    let activities ← (xmlDoc.getElementsByTagName "activity").mapM
      (readActivity momentParse projects)
    pure { status := "ok", activities := activities, projects := projects }

/-- Embeds `readXml(xmlBackupContents)`: the `try` block, and the `catch` result when
it throws. -/
def readXml (parseFromString : String → String → Document)
    (momentParse : String → String → Moment) (xmlBackupContents : String) : XmlResult :=
  match readXmlTry parseFromString momentParse xmlBackupContents with
  | some result => result
  | none => { status := "error", activities := [], projects := [] }

/-- The `description` element `createXml` builds: it gets a text child only
when the description is truthy, that is neither `undefined` nor empty. -/
def descriptionElement (description : Option String) : Node :=
  match description with
  | some text =>
    if text ≠ "" then .element "description" [] [.text text]
    else .element "description" [] []
  | none => .element "description" [] []

/-- The `project` element `createXml` builds for one project. -/
def projectElement (project : Project) : Node :=
  .element "project" [("active", "true"), ("id", project.id)]
    [.element "title" [] [.text project.name], descriptionElement project.description]

/-- The `activity` element `createXml` builds for one activity, once
`activity.project.id` has been read. -/
def activityElementFor (activity : Activity) (projectId : String) : Node :=
  .element "activity"
    [("id", activity.id), ("projectReference", projectId),
     ("start", activity.startTime.format "yyyy-MM-DDTHH:mm"),
     ("end", activity.endTime.format "yyyy-MM-DDTHH:mm")]
    [descriptionElement activity.description]

/-- The `activity` element `createXml` builds for one activity; `none` when
reading `activity.project.id` throws because the project is `undefined`. -/
def activityElement (activity : Activity) : Option Node := do
  let project ← activity.project
  pure (activityElementFor activity project.id)

/-- The document `createXml` builds before serializing it. -/
def createXmlDocument (activities : List Activity) (projects : List Project) :
    Option Document := do
  let projectElements := projects.map projectElement
  let activityElements ← activities.mapM activityElement
  pure ⟨.element "baralga" [("version", "1")]
    [.element "projects" [] projectElements, .element "activities" [] activityElements]⟩

/-- The XML declaration `createXml` puts in front of the document. -/
def xmlDeclaration : String := "<?xml version=\"1.0\" encoding=\"UTF-8\" standalone=\"no\"?>"

/-- Embeds `createXml(activities, projects)`; `none` when it throws. -/
def createXml (activities : List Activity) (projects : List Project) : Option Blob := do
  let xmlDoc ← createXmlDocument activities projects
  let xmlString := serializeToString xmlDoc
  pure { parts := [xmlDeclaration, xmlString], type := "text/xml;charset=utf-8" }

/-! ## `stores.js` -/

/-- A project of an activities response, as the server embeds it: the four
fields `applyFilter` copies, and the hypermedia links it drops. -/
structure EmbeddedProject where
  id : String
  title : String
  active : Bool
  description : Option String
  links : List String
deriving DecidableEq, Repr

/-- The object `applyFilter` builds for one embedded project. -/
structure FilterProject where
  id : String
  title : String
  active : Bool
  description : Option String
deriving DecidableEq, Repr

/-- An activity of an activities response; `href` is `_links.project.href`. -/
structure EmbeddedActivity where
  id : String
  description : Option String
  start : String
  «end» : String
  href : String
deriving DecidableEq, Repr

/-- The `_embedded` part of an activities response. -/
structure Embedded where
  activities : List EmbeddedActivity
  projects : List EmbeddedProject
deriving DecidableEq, Repr

/-- The data of a successful `GET /api/activities` response. -/
structure ActivitiesResponse where
  _embedded : Option Embedded
deriving DecidableEq, Repr

/-- The object `applyFilter` builds for one embedded activity. -/
structure FilteredActivity where
  id : String
  description : Option String
  startTime : Moment
  endTime : Moment
  project : Option FilterProject
deriving DecidableEq, Repr

/-- The listeners this module subscribes to its stores. -/
inductive Subscriber where
  /-- The listener of `useLocalStorage`: `localStorage.setItem(key, JSON.stringify(current))`. -/
  | writeBack (key : String)
  /-- The listener at the end of the module: `totalDurationStore.set(totalDuration())`. -/
  | updateTotalDuration
deriving DecidableEq, Repr

/-- A svelte `writable` holding an object or array: its value and its
subscribers in subscription order. -/
structure Writable (α : Type) where
  value : α
  subscribers : List Subscriber

/-- The state of the module: its stores and the browser's `localStorage`.
`totalDurationStore` has no subscriber inside this module, so only its value
is kept. -/
structure Stores where
  projectStore : Writable (List Project)
  activitiesStore : Writable (List Activity)
  filteredActivitiesStore : Writable (List FilteredActivity)
  filterStore : Writable Filter
  totalDurationStore : Duration
  localStorage : String → Option String

/-- What the module takes from its environment: `JSON.stringify` and
`JSON.parse` on the values of the stores (the parse of `activities` and of
`filter` followed by `activityInitializer` and `filterInitializer`),
`moment(isoString)`, the `shortid()` of the default project, and
`moment().startOf("year")` and `moment().endOf("year")` at load time. -/
structure Env where
  stringifyProjects : List Project → String
  stringifyActivities : List Activity → String
  stringifyFilteredActivities : List FilteredActivity → String
  stringifyFilter : Filter → String
  parseProjects : String → List Project
  parseActivities : String → List Activity
  parseFilteredActivities : String → List FilteredActivity
  parseFilter : String → Filter
  moment : String → Moment
  shortid : String
  startOfYear : Moment
  endOfYear : Moment

/-- Embeds `localStorage.setItem(key, value)`. -/
def setItem (localStorage : String → Option String) (key value : String) :
    String → Option String :=
  fun k => if k = key then some value else localStorage k

/-- Embeds `localStorage.getItem(key)` when the result is truthy (present and not
empty), as `if (json)` tests it. -/
def getTruthyItem (localStorage : String → Option String) (key : String) : Option String :=
  match localStorage key with
  | some json => if json ≠ "" then some json else none
  | none => none

/-- Embeds `totalDuration()`. -/
def totalDuration (s : Stores) : Duration :=
  if s.filteredActivitiesStore.value.length = 0 then
    Duration.ofMilliseconds 0
  else
    match s.filteredActivitiesStore.value.map
        (fun activity => Duration.ofMilliseconds (activity.endTime.diff activity.startTime)) with
    | [] => Duration.ofMilliseconds 0
    | first :: rest => rest.foldl (fun total currentValue => total.add currentValue) first

/-- Runs one listener; `current` is `JSON.stringify` of the value it is called with. -/
def runSubscriber (current : String) : Subscriber → Stores → Stores
  | .writeBack key, s => { s with localStorage := setItem s.localStorage key current }
  | .updateTotalDuration, s => { s with totalDurationStore := totalDuration s }

/-- One of the module's stores: its persistence key, where it lives in the
state, and `JSON.stringify` on its values. -/
structure StoreRef (α : Type) where
  key : String
  get : Stores → Writable α
  put : Writable α → Stores → Stores
  stringify : α → String

namespace StoreRef

/-- Embeds `store.set(newValue)`: svelte stores the value (an object or array always
counts as changed) and calls every subscriber with it, in order. -/
def set {α : Type} (store : StoreRef α) (newValue : α) (s : Stores) : Stores :=
  (store.get s).subscribers.foldl
    (fun acc subscriber => runSubscriber (store.stringify newValue) subscriber acc)
    (store.put { store.get s with value := newValue } s)

/-- Embeds `store.subscribe(run)`: svelte adds the listener and calls it at once with
the current value. -/
def subscribe {α : Type} (store : StoreRef α) (run : Subscriber) (s : Stores) : Stores :=
  runSubscriber (store.stringify (store.get s).value) run
    (store.put { store.get s with subscribers := (store.get s).subscribers ++ [run] } s)

/-- Embeds `store.useLocalStorage()`: load the stored record if there is one, then
subscribe the write-back listener. -/
def useLocalStorage {α : Type} (store : StoreRef α) (parse : String → α) (s : Stores) :
    Stores :=
  let loaded :=
    match getTruthyItem s.localStorage store.key with
    | some json => store.set (parse json) s
    | none => s
  store.subscribe (.writeBack store.key) loaded

end StoreRef

/-- Embeds `createWritableStore(key, startValue, elementInitializer)` up to its
`return`: the stored record is loaded only when an initializer is given. The
initializer is part of `parse` here; the source stores a record that is not an
array before its initializer has run, and `useLocalStorage()`, called right
after on every store that has an initializer, stores it again initialized. -/
def createWritableStore {α : Type} (localStorage : String → Option String) (key : String)
    (startValue : α) (elementInitializer : Option (String → α)) : Writable α :=
  match elementInitializer with
  | some parse =>
    match getTruthyItem localStorage key with
    | some json => { value := parse json, subscribers := [] }
    | none => { value := startValue, subscribers := [] }
  | none => { value := startValue, subscribers := [] }

/-- The store `projectStore`. -/
def projectStore (env : Env) : StoreRef (List Project) where
  key := "projects"
  get := fun s => s.projectStore
  put := fun w s => { s with projectStore := w }
  stringify := env.stringifyProjects

/-- The store `activitiesStore`. -/
def activitiesStore (env : Env) : StoreRef (List Activity) where
  key := "activities"
  get := fun s => s.activitiesStore
  put := fun w s => { s with activitiesStore := w }
  stringify := env.stringifyActivities

/-- The store `filteredActivitiesStore`. -/
def filteredActivitiesStore (env : Env) : StoreRef (List FilteredActivity) where
  key := "filteredActivities"
  get := fun s => s.filteredActivitiesStore
  put := fun w s => { s with filteredActivitiesStore := w }
  stringify := env.stringifyFilteredActivities

/-- The store `filterStore`. -/
def filterStore (env : Env) : StoreRef Filter where
  key := "filter"
  get := fun s => s.filterStore
  put := fun w s => { s with filterStore := w }
  stringify := env.stringifyFilter

/-- The module's top-level code, run once at load time on the browser's
`localStorage`: the stores are created, three of them call
`useLocalStorage()`, and the total-duration listener is subscribed. -/
def initStores (env : Env) (localStorage : String → Option String) : Stores :=
  let created : Stores := {
    projectStore := createWritableStore localStorage "projects"
      [{ id := env.shortid, name := "My Project", description := none, active := none }] none
    activitiesStore := createWritableStore localStorage "activities" []
      (some env.parseActivities)
    filteredActivitiesStore := createWritableStore localStorage "filteredActivities" [] none
    filterStore := createWritableStore localStorage "filter"
      { timespan := "year", «from» := env.startOfYear, «to» := env.endOfYear }
      (some env.parseFilter)
    totalDurationStore := Duration.ofMilliseconds 0
    localStorage := localStorage }
  let s1 := (projectStore env).useLocalStorage env.parseProjects created
  let s2 := (activitiesStore env).useLocalStorage env.parseActivities s1
  let s3 := (filterStore env).useLocalStorage env.parseFilter s2
  let s4 := { s3 with totalDurationStore := totalDuration s3 }
  (filteredActivitiesStore env).subscribe .updateTotalDuration s4

/-- Embeds `importBackup(dataBackup)`. -/
def importBackup (env : Env) (dataBackup : XmlResult) (s : Stores) : Stores :=
  (activitiesStore env).set dataBackup.activities
    ((projectStore env).set dataBackup.projects s)

/-- Embeds `s.lastIndexOf(c)` on the characters of a string, scanning from index `i`
with `found` the last index seen so far (`-1` for none). -/
def lastIndexOfFrom (c : Char) : List Char → Int → Int → Int
  | [], _, found => found
  | x :: rest, i, found => lastIndexOfFrom c rest (i + 1) (if x = c then i else found)

/-- Embeds `s.lastIndexOf(c)`. -/
def lastIndexOf (s : String) (c : Char) : Int := lastIndexOfFrom c s.data 0 (-1)

/-- Embeds `s.substring(start)`. -/
def substring (s : String) (start : Int) : String := String.mk (s.data.drop start.toNat)

/-- The object `applyFilter` maps one embedded project to. -/
def reshapeProject (p : EmbeddedProject) : FilterProject :=
  { id := p.id, title := p.title, active := p.active, description := p.description }

/-- The object `applyFilter` maps one embedded activity to. -/
def reshapeActivity (env : Env) (projects : List FilterProject) (a : EmbeddedActivity) :
    FilteredActivity :=
  let projectId := substring a.href (lastIndexOf a.href '/' + 1)
  let project := projects.find? (fun p => p.id = projectId)
  { id := a.id, description := a.description, startTime := env.moment a.start,
    endTime := env.moment a.end, project := project }

/-- The request path `applyFilter(filter)` sends. -/
def applyFilterRequest (filter : Filter) : String :=
  "/api/activities?" ++ "start=" ++ filter.from.format "YYYY-MM-DD" ++
    "&end=" ++ filter.to.format "YYYY-MM-DD"

/-- What `applyFilter(filter)` does when its request succeeds with `data`. -/
def applyFilterResponse (env : Env) (filter : Filter) (data : ActivitiesResponse)
    (s : Stores) : Stores :=
  let embeddedActivities := match data._embedded with
    | some embedded => embedded.activities
    | none => []
  let embeddedProjects := match data._embedded with
    | some embedded => embedded.projects
    | none => []
  let projects := embeddedProjects.map reshapeProject
  let activities := embeddedActivities.map (reshapeActivity env projects)
  (filterStore env).set filter ((filteredActivitiesStore env).set activities s)


/-! ## Wiring of the stores and sample values -/

/-- The subscriber lists of `projectStore`, `activitiesStore`,
`filteredActivitiesStore` and `filterStore`, in this order. -/
def Stores.subscriptions (s : Stores) :
    List Subscriber × List Subscriber × List Subscriber × List Subscriber :=
  (s.projectStore.subscribers, s.activitiesStore.subscribers,
    s.filteredActivitiesStore.subscribers, s.filterStore.subscribers)

/-- The subscriptions the module's top-level code leaves behind: the
write-back listener on the three stores that call `useLocalStorage()`, and the
total-duration listener on `filteredActivitiesStore`. -/
def Wired (s : Stores) : Prop :=
  s.subscriptions =
    ([.writeBack "projects"], [.writeBack "activities"], [.updateTotalDuration],
      [.writeBack "filter"])

instance (s : Stores) : Decidable (Wired s) := by
  unfold Wired
  infer_instance

/-- The moment whose local wall clock reads `hour:minute` on local day number
`day`, in a zone that is `utcOffset` minutes ahead of UTC at that time. -/
def Moment.atTime (utcOffset day hour minute : Int) : Moment :=
  { valueOf := day * 86400000 + hour * 3600000 + minute * 60000 - utcOffset * 60000,
    utcOffset := utcOffset }

/-- A sample project. -/
def sampleProject : Project :=
  { id := "p1", name := "Baralga", description := some "Time tracking", active := some false }

/-- A sample activity on 2020-11-01 from 09:00 to 10:30. -/
def sampleActivity : Activity :=
  { id := "a1", description := some "Design review",
    startTime := Moment.atTime 0 18567 9 0, endTime := Moment.atTime 0 18567 10 30,
    project := some sampleProject }

/-- The document `createXml` builds for the sample activity and project. -/
def sampleDocument : Document :=
  ⟨.element "baralga" [("version", "1")]
    [.element "projects" []
      [.element "project" [("active", "true"), ("id", "p1")]
        [.element "title" [] [.text "Baralga"],
         .element "description" [] [.text "Time tracking"]]],
     .element "activities" []
      [.element "activity"
        [("id", "a1"), ("projectReference", "p1"), ("start", "2020-11-01T09:00"),
         ("end", "2020-11-01T10:30")]
        [.element "description" [] [.text "Design review"]]]]⟩

/-- Two filtered activities of 2020-11-01: 09:00 to 10:30 and 10:30 to 11:00. -/
def sampleFilteredActivities : List FilteredActivity :=
  [{ id := "a1", description := none, startTime := Moment.atTime 0 18567 9 0,
     endTime := Moment.atTime 0 18567 10 30, project := none },
   { id := "a2", description := none, startTime := Moment.atTime 0 18567 10 30,
     endTime := Moment.atTime 0 18567 11 0, project := none }]

/-- A sample environment: a JSON encoder that lists the ids of what it
encodes, a decoder that finds nothing, and fixed values for the rest. -/
def sampleEnv : Env where
  stringifyProjects := fun projects => "[" ++ join "," (projects.map (·.id)) ++ "]"
  stringifyActivities := fun activities => "[" ++ join "," (activities.map (·.id)) ++ "]"
  stringifyFilteredActivities := fun activities =>
    "[" ++ join "," (activities.map (·.id)) ++ "]"
  stringifyFilter := fun filter => "filter:" ++ filter.timespan
  parseProjects := fun _ => []
  parseActivities := fun _ => []
  parseFilteredActivities := fun _ => []
  parseFilter := fun _ => { timespan := "year", «from» := ⟨0, 0⟩, «to» := ⟨0, 0⟩ }
  moment := fun _ => ⟨0, 0⟩
  shortid := "s1"
  startOfYear := Moment.atTime 0 18262 0 0
  endOfYear := ⟨1609459199999, 0⟩

/-- A document whose one activity refers to a project that is not in it. -/
def orphanDocument : Document :=
  ⟨.element "baralga" [("version", "1")]
    [.element "projects" [] [],
     .element "activities" []
      [.element "activity"
        [("id", "a9"), ("projectReference", "p9"), ("start", "2020-11-01T09:00"),
         ("end", "2020-11-01T10:30")]
        [.element "description" [] []]]]⟩

/-- An activity of the night of 2020-10-25 in a zone that leaves daylight
saving time then: from 01:00 at UTC+2 to 04:00 at UTC+1, four hours later. -/
def nightActivity : Activity :=
  { id := "a3", description := none,
    startTime := Moment.atTime 120 18560 1 0, endTime := Moment.atTime 60 18560 4 0,
    project := some sampleProject }

/-- A sample response of `GET /api/activities`: one project and three
activities, whose links end in the project's id, in an unknown id, and hold no
"/" at all. -/
def sampleResponse : ActivitiesResponse :=
  { _embedded := some {
      activities := [
        { id := "a1", description := some "Design review", start := "2020-11-01T09:00:00",
          «end» := "2020-11-01T10:30:00", href := "http://host/api/projects/p1" },
        { id := "a2", description := none, start := "2020-11-01T10:30:00",
          «end» := "2020-11-01T11:00:00", href := "http://host/api/projects/p9" },
        { id := "a3", description := none, start := "2020-11-01T11:00:00",
          «end» := "2020-11-01T12:00:00", href := "p1" }],
      projects := [
        { id := "p1", title := "Baralga", active := true,
          description := some "Time tracking", links := ["http://host/api/projects/p1"] }] } }

/-! ## Theorems: `formatter.js` -/

theorem Duration.absFloorDiv_of_nonneg {a b : Int} (ha : 0 ≤ a) (hb : 0 ≤ b) :
    Duration.absFloorDiv a b = a / b ∧ 0 ≤ a / b :=
  ⟨Int.tdiv_eq_ediv ha hb, Int.ediv_nonneg ha hb⟩

theorem Duration.minutes_of_nonneg (d : Duration) (h0 : 0 ≤ d.milliseconds) :
    d.minutes = d.milliseconds / 60000 % 60 := by
  obtain ⟨e1, p1⟩ := Duration.absFloorDiv_of_nonneg h0 (show (0 : Int) ≤ 1000 by norm_num)
  obtain ⟨e2, p2⟩ := Duration.absFloorDiv_of_nonneg p1 (show (0 : Int) ≤ 60 by norm_num)
  simp only [Duration.minutes]
  rw [e1, e2, Int.tmod_eq_emod p2 (by norm_num)]
  omega

theorem Duration.hours_of_nonneg (d : Duration) (h0 : 0 ≤ d.milliseconds) :
    d.hours = d.milliseconds / 3600000 % 24 := by
  obtain ⟨e1, p1⟩ := Duration.absFloorDiv_of_nonneg h0 (show (0 : Int) ≤ 1000 by norm_num)
  obtain ⟨e2, p2⟩ := Duration.absFloorDiv_of_nonneg p1 (show (0 : Int) ≤ 60 by norm_num)
  obtain ⟨e3, p3⟩ := Duration.absFloorDiv_of_nonneg p2 (show (0 : Int) ≤ 60 by norm_num)
  simp only [Duration.hours]
  rw [e1, e2, e3, Int.tmod_eq_emod p3 (by norm_num)]
  omega

theorem Duration.minutes_ofHoursMinutes (h m : Nat) (hm : m < 60) :
    (Duration.ofHoursMinutes h m).minutes = m := by
  have h0 : (0 : Int) ≤ (Duration.ofHoursMinutes h m).milliseconds := by
    simp only [Duration.ofHoursMinutes]; positivity
  rw [Duration.minutes_of_nonneg _ h0]
  simp only [Duration.ofHoursMinutes]
  omega

theorem Duration.hours_ofHoursMinutes (h m : Nat) (hm : m < 60) :
    (Duration.ofHoursMinutes h m).hours = ((h % 24 : Nat) : Int) := by
  have h0 : (0 : Int) ≤ (Duration.ofHoursMinutes h m).milliseconds := by
    simp only [Duration.ofHoursMinutes]; positivity
  rw [Duration.hours_of_nonneg _ h0]
  simp only [Duration.ofHoursMinutes]
  omega

/-- C3, as amended: for `h` whole hours and `m` minutes with `m < 60`,
`formatDuration` prints the hours part `h mod 24` padded to width 2, a colon
and `m` padded to width 2; 2h0m gives "02:00" and 0h30m gives "00:30". -/
theorem formatDuration_hours_mod_24 (h m : Nat) (hm : m < 60) :
    formatDuration (Duration.ofHoursMinutes h m) =
        padStart (numberToString ((h % 24 : Nat) : Int)) 2 '0' ++ ":" ++
          padStart (numberToString (m : Int)) 2 '0' ∧
      formatDuration (Duration.ofHoursMinutes 2 0) = "02:00" ∧
      formatDuration (Duration.ofHoursMinutes 0 30) = "00:30" := by
  refine ⟨?_, by decide, by decide⟩
  have h1 := Duration.hours_ofHoursMinutes h m hm
  have h2 := Duration.minutes_ofHoursMinutes h m hm
  simp only [formatDuration]
  rw [h1, h2]

theorem formatDuration_hours_mod_24_witness :
    5 < 60 ∧
      (formatDuration (Duration.ofHoursMinutes (31 : Nat) (5 : Nat)) =
          padStart (numberToString ((31 % 24 : Nat) : Int)) 2 '0' ++ ":" ++
            padStart (numberToString ((5 : Nat) : Int)) 2 '0' ∧
        formatDuration (Duration.ofHoursMinutes 2 0) = "02:00" ∧
        formatDuration (Duration.ofHoursMinutes 0 30) = "00:30") :=
  ⟨by decide, formatDuration_hours_mod_24 31 5 (by decide)⟩

/-- C3 fails as stated: 24 hours and 0 minutes print as "00:00", not as 24
padded to width 2 followed by ":00". -/
theorem formatDuration_24_hours :
    formatDuration (Duration.ofHoursMinutes 24 0) = "00:00" ∧
      formatDuration (Duration.ofHoursMinutes 24 0) ≠
        padStart (numberToString 24) 2 '0' ++ ":" ++ padStart (numberToString 0) 2 '0' := by
  decide

theorem format_YYYY (m : Moment) : m.format "YYYY" = zeroFill m.year 4 := by
  have e : tokenize "YYYY".data = [Token.YYYY] := by decide
  simp [Moment.format, e, String.join, Token.render]

theorem format_Qo (m : Moment) : m.format "Qo" = ordinal m.quarter := by
  have e : tokenize "Qo".data = [Token.Qo] := by decide
  simp [Moment.format, e, String.join, Token.render]

theorem format_wo (m : Moment) : m.format "wo" = ordinal m.week := by
  have e : tokenize "wo".data = [Token.wo] := by decide
  simp [Moment.format, e, String.join, Token.render]

theorem format_MMMM_YYYY (m : Moment) :
    m.format "MMMM YYYY" = monthName m.month ++ " " ++ zeroFill m.year 4 := by
  have e : tokenize "MMMM YYYY".data = [Token.MMMM, Token.literal ' ', Token.YYYY] := by decide
  simp [Moment.format, e, String.join, Token.render]
  rfl

/-- The moment 2020-11-01T00:00 local time, the `from` of the filters in
`formatter.spec.js`, in any zone. -/
theorem nov_2020_fields (utcOffset : Int) :
    (Moment.atTime utcOffset 18567 0 0).year = 2020 ∧
      (Moment.atTime utcOffset 18567 0 0).month = 10 ∧
      (Moment.atTime utcOffset 18567 0 0).date = 1 ∧
      (Moment.atTime utcOffset 18567 0 0).quarter = 4 ∧
      (Moment.atTime utcOffset 18567 0 0).week = 45 := by
  have hd : (Moment.atTime utcOffset 18567 0 0).dayNumber = 18567 := by
    simp only [Moment.dayNumber, Moment.localTime, Moment.atTime]
    omega
  simp only [Moment.year, Moment.month, Moment.date, Moment.quarter, Moment.week, weekOfYear,
    Moment.dayOfYear, hd]
  decide

/-- C6: `asFilterLabel` reads only `timespan` and `from` (the label does not
change with `to`), and is the year of `from` printed by `YYYY` for "year", the
ordinal quarter, " Quarter " and the year for "quarter", the month name, a
space and the year for "month", the ordinal week of the year, " Week ", the
month name, a space and the year for "week", and "?" otherwise; ordinals carry
the English suffixes; for 2020-11-01, local midnight in any zone, the labels
are "2020", "4th Quarter 2020", "November 2020" and
"45th Week November 2020". -/
theorem asFilterLabel_spec (timespan : String) («from» to1 to2 : Moment) (utcOffset : Int) :
    asFilterLabel ⟨timespan, «from», to1⟩ = asFilterLabel ⟨timespan, «from», to2⟩ ∧
      asFilterLabel ⟨timespan, «from», to1⟩ =
        (if timespan = "year" then zeroFill «from».year 4
         else if timespan = "quarter" then
           ordinal «from».quarter ++ " Quarter " ++ zeroFill «from».year 4
         else if timespan = "month" then
           monthName «from».month ++ " " ++ zeroFill «from».year 4
         else if timespan = "week" then
           ordinal «from».week ++ " Week " ++ monthName «from».month ++ " " ++
             zeroFill «from».year 4
         else "?") ∧
      [1, 2, 3, 4, 11, 12, 13, 21, 22, 23, 24, 101, 111, 112, 113].map ordinal =
        ["1st", "2nd", "3rd", "4th", "11th", "12th", "13th", "21st", "22nd", "23rd",
         "24th", "101st", "111th", "112th", "113th"] ∧
      asFilterLabel ⟨"year", Moment.atTime utcOffset 18567 0 0, to1⟩ = "2020" ∧
      asFilterLabel ⟨"quarter", Moment.atTime utcOffset 18567 0 0, to1⟩ =
        "4th Quarter 2020" ∧
      asFilterLabel ⟨"month", Moment.atTime utcOffset 18567 0 0, to1⟩ = "November 2020" ∧
      asFilterLabel ⟨"week", Moment.atTime utcOffset 18567 0 0, to1⟩ =
        "45th Week November 2020" ∧
      (Moment.atTime utcOffset 18567 0 0).format "YYYY-MM-DD" = "2020-11-01" := by
  obtain ⟨hy, hm, hd, hq, hw⟩ := nov_2020_fields utcOffset
  have general : ∀ (ts : String) (f t : Moment), asFilterLabel ⟨ts, f, t⟩ =
      (if ts = "year" then zeroFill f.year 4
       else if ts = "quarter" then ordinal f.quarter ++ " Quarter " ++ zeroFill f.year 4
       else if ts = "month" then monthName f.month ++ " " ++ zeroFill f.year 4
       else if ts = "week" then
         ordinal f.week ++ " Week " ++ monthName f.month ++ " " ++ zeroFill f.year 4
       else "?") := by
    intro ts f t
    simp only [asFilterLabel, format_YYYY, format_Qo, format_wo, format_MMMM_YYYY]
    split_ifs <;> simp [String.append_assoc]
  have e : tokenize "YYYY-MM-DD".data =
      [Token.YYYY, Token.literal '-', Token.MM, Token.literal '-', Token.DD] := by decide
  refine ⟨by rw [general, general], general _ _ _, by decide, ?_, ?_, ?_, ?_, ?_⟩
  · rw [general]; simp only [hy, hm, hq, hw]; decide
  · rw [general]; simp only [hy, hm, hq, hw]; decide
  · rw [general]; simp only [hy, hm, hq, hw]; decide
  · rw [general]; simp only [hy, hm, hq, hw]; decide
  · simp only [Moment.format, e, List.map, Token.render, hy, hm, hd]; decide

/-! ## Theorems: `export_csv.js` -/

theorem string_join_cons (x : String) (rest : List String) :
    String.join (x :: rest) = x ++ String.join rest := by
  rw [String.join_eq, String.join_eq]
  apply String.ext
  simp

theorem mapM_option_eq_map {α β : Type} (f : α → Option β) (g : α → β) :
    ∀ l : List α, (∀ a ∈ l, f a = some (g a)) → l.mapM f = some (l.map g)
  | [], _ => rfl
  | a :: rest, h => by
    have ha : f a = some (g a) := h a (List.mem_cons_self a rest)
    have hrest := mapM_option_eq_map f g rest
      (fun b hb => h b (List.mem_cons_of_mem a hb))
    rw [List.mapM_cons, ha, hrest]
    rfl

theorem format_DD_MM_YYYY (m : Moment) :
    m.format "DD.MM.YYYY" =
      zeroFill m.date 2 ++ "." ++ zeroFill (m.month + 1) 2 ++ "." ++ zeroFill m.year 4 := by
  have e : tokenize "DD.MM.YYYY".data =
      [Token.DD, Token.literal '.', Token.MM, Token.literal '.', Token.YYYY] := by decide
  simp [Moment.format, e, String.join, Token.render]
  rfl

theorem format_HH_mm (m : Moment) :
    m.format "HH:mm" = zeroFill m.hours 2 ++ ":" ++ zeroFill m.minutes 2 := by
  have e : tokenize "HH:mm".data = [Token.HH, Token.literal ':', Token.mm] := by decide
  simp [Moment.format, e, String.join, Token.render]
  rfl

/-- C5, as amended: for every list of activities that each have a project,
`createCsv` returns a blob whose text is the header line followed by one row
per activity in input order and nothing else; a row is the start date as
DD.MM.YYYY, the start and end time as HH:mm (local date and clock), the
formatted duration of the time elapsed from start to end, the project's name
and the raw description (empty when there is none), joined by ";" and ended
by a newline; for the empty list the text is the header line. -/
theorem createCsv_text (activities : List Activity)
    (hproject : ∀ a ∈ activities, a.project ≠ none) :
    (createCsv activities).map Blob.text = some
        ("Date;Start;End;Duration;Project;Description\n" ++
          String.join (activities.map (fun a =>
            zeroFill a.startTime.date 2 ++ "." ++ zeroFill (a.startTime.month + 1) 2 ++ "." ++
              zeroFill a.startTime.year 4 ++ ";" ++
            (zeroFill a.startTime.hours 2 ++ ":" ++ zeroFill a.startTime.minutes 2) ++ ";" ++
            (zeroFill a.endTime.hours 2 ++ ":" ++ zeroFill a.endTime.minutes 2) ++ ";" ++
            formatDuration (Duration.ofMilliseconds (a.endTime.diff a.startTime)) ++ ";" ++
            (a.project.map Project.name).getD "" ++ ";" ++
            a.description.getD "" ++ "\n"))) ∧
      (createCsv []).map Blob.text = some "Date;Start;End;Duration;Project;Description\n" := by
  refine ⟨?_, by decide⟩
  have hrows := mapM_option_eq_map csvRow (fun a =>
      zeroFill a.startTime.date 2 ++ "." ++ zeroFill (a.startTime.month + 1) 2 ++ "." ++
        zeroFill a.startTime.year 4 ++ ";" ++
      (zeroFill a.startTime.hours 2 ++ ":" ++ zeroFill a.startTime.minutes 2) ++ ";" ++
      (zeroFill a.endTime.hours 2 ++ ":" ++ zeroFill a.endTime.minutes 2) ++ ";" ++
      formatDuration (Duration.ofMilliseconds (a.endTime.diff a.startTime)) ++ ";" ++
      (a.project.map Project.name).getD "" ++ ";" ++
      a.description.getD "" ++ "\n") activities ?_
  · have hheader : CSV_HEADER = "Date;Start;End;Duration;Project;Description\n" := by decide
    simp only [createCsv, hrows, bind, Option.bind, pure, Option.map, Blob.text,
      string_join_cons, hheader]
  · intro a ha
    cases hp : a.project with
    | none => exact absurd hp (hproject a ha)
    | some p =>
      simp only [csvRow, hp, bind, Option.bind, pure, join, joinField, asFormattedDuration,
        format_DD_MM_YYYY, format_HH_mm, Option.map, Option.getD, String.append_assoc]

/-! ## Theorems: `xml_backup.js` -/

theorem mapM_option_eq_none {α β : Type} (f : α → Option β) :
    ∀ l : List α, (∃ a ∈ l, f a = none) → l.mapM f = none
  | [], h => by obtain ⟨a, ha, _⟩ := h; cases ha
  | a :: rest, h => by
    rw [List.mapM_cons]
    cases hfa : f a with
    | none => rfl
    | some b =>
      have hrest : rest.mapM f = none := by
        apply mapM_option_eq_none f rest
        obtain ⟨x, hx, hfx⟩ := h
        rcases List.mem_cons.mp hx with rfl | hx
        · rw [hfa] at hfx; cases hfx
        · exact ⟨x, hx, hfx⟩
      rw [hrest]
      rfl

theorem mapM_option_eq_some {α β : Type} (f : α → Option β) :
    ∀ l : List α, (∀ a ∈ l, f a ≠ none) → ∃ r, l.mapM f = some r ∧ l.map f = r.map some
  | [], _ => ⟨[], rfl, rfl⟩
  | a :: rest, h => by
    obtain ⟨r, hr, hmap⟩ := mapM_option_eq_some f rest
      (fun b hb => h b (List.mem_cons_of_mem a hb))
    cases hfa : f a with
    | none => exact absurd hfa (h a (List.mem_cons_self a rest))
    | some b =>
      refine ⟨b :: r, ?_, ?_⟩
      · rw [List.mapM_cons, hfa, hr]; rfl
      · simp [hfa, hmap]

theorem map_eq_of_map_some {α β γ : Type} {f : α → Option β} (h : β → γ) (k : α → γ)
    (hk : ∀ a b, f a = some b → h b = k a) :
    ∀ (l : List α) (r : List β), l.map f = r.map some → r.map h = l.map k
  | [], [], _ => rfl
  | [], _ :: _, e => by simp at e
  | _ :: _, [], e => by simp at e
  | a :: l, b :: r, e => by
    simp only [List.map_cons, List.cons.injEq] at e
    simp only [List.map_cons, hk a b e.1, map_eq_of_map_some h k hk l r e.2]

theorem elementsNamedIn_ne_nil (name : String) :
    ∀ nodes : List Node, (∃ c ∈ nodes, c.tagName = some name) →
      Node.elementsNamedIn name nodes ≠ []
  | [], h => by obtain ⟨c, hc, _⟩ := h; cases hc
  | node :: rest, h => by
    obtain ⟨c, hc, htag⟩ := h
    rcases List.mem_cons.mp hc with rfl | hc
    · cases c with
      | text data => simp [Node.tagName] at htag
      | element tagName attributes childNodes =>
        simp only [Node.tagName, Option.some.injEq] at htag
        simp [Node.elementsNamedIn, Node.elementsNamed, htag]
    · have := elementsNamedIn_ne_nil name rest ⟨c, hc, htag⟩
      simp [Node.elementsNamedIn, this]

theorem readProject_eq_none (e : Node)
    (h : e.attribute "id" = none ∨ e.getElementsByTagName "title" = [] ∨
      e.getElementsByTagName "description" = []) : readProject e = none := by
  unfold readProject
  cases hid : e.attribute "id" with
  | none => rfl
  | some id =>
    cases ht : e.getElementsByTagName "title" with
    | nil => rfl
    | cons t ts =>
      cases hd : e.getElementsByTagName "description" with
      | nil => rfl
      | cons d ds => simp [hid, ht, hd] at h

theorem readActivity_eq_none (momentParse : String → String → Moment)
    (projects : List Project) (e : Node)
    (h : e.attribute "id" = none ∨ e.attribute "start" = none ∨ e.attribute "end" = none ∨
      e.attribute "projectReference" = none) :
    readActivity momentParse projects e = none := by
  unfold readActivity
  cases hs : e.attribute "start" with
  | none => rfl
  | some s =>
    cases he : e.attribute "end" with
    | none => rfl
    | some en =>
      cases hp : e.attribute "projectReference" with
      | none => rfl
      | some p =>
        cases hi : e.attribute "id" with
        | none => rfl
        | some i => simp [hs, he, hp, hi] at h

theorem readXml_of_try_none (parseFromString : String → String → Document)
    (momentParse : String → String → Moment) (xmlBackupContents : String)
    (h : readXmlTry parseFromString momentParse xmlBackupContents = none) :
    readXml parseFromString momentParse xmlBackupContents =
      { status := "error", activities := [], projects := [] } := by
  simp only [readXml, h]

theorem readXmlTry_of_wellFormed (parseFromString : String → String → Document)
    (momentParse : String → String → Moment) (xmlBackupContents : String)
    (hwf : (parseFromString xmlBackupContents "text/xml").getElementsByTagName
      "parsererror" = []) :
    readXmlTry parseFromString momentParse xmlBackupContents =
      (((parseFromString xmlBackupContents "text/xml").getElementsByTagName "project").mapM
        readProject).bind (fun projects =>
          (((parseFromString xmlBackupContents "text/xml").getElementsByTagName
            "activity").mapM (readActivity momentParse projects)).bind (fun activities =>
              some { status := "ok", activities := activities, projects := projects })) := by
  simp only [readXmlTry, hwf, List.length_nil, gt_iff_lt, lt_self_iff_false, if_false]
  rfl

/-- C2: `readXml` always returns a result, which is either of status "ok" or
exactly the error result with both lists empty; it is the error result
whenever the parsed document holds a `parsererror` element, whenever the
extraction throws, and in particular whenever some `project` element lacks an
`id` attribute or has no `title` or no `description` element inside it, or
some `activity` element lacks an `id`, `start`, `end` or `projectReference`
attribute. -/
theorem readXml_fail_closed (parseFromString : String → String → Document)
    (momentParse : String → String → Moment) (xmlBackupContents : String) :
    ((readXml parseFromString momentParse xmlBackupContents).status = "ok" ∨
        readXml parseFromString momentParse xmlBackupContents =
          { status := "error", activities := [], projects := [] }) ∧
      ((parseFromString xmlBackupContents "text/xml").getElementsByTagName "parsererror" ≠ [] →
        readXml parseFromString momentParse xmlBackupContents =
          { status := "error", activities := [], projects := [] }) ∧
      (readXmlTry parseFromString momentParse xmlBackupContents = none →
        readXml parseFromString momentParse xmlBackupContents =
          { status := "error", activities := [], projects := [] }) ∧
      ((∃ e ∈ (parseFromString xmlBackupContents "text/xml").getElementsByTagName "project",
          e.attribute "id" = none ∨ e.getElementsByTagName "title" = [] ∨
            e.getElementsByTagName "description" = []) →
        readXml parseFromString momentParse xmlBackupContents =
          { status := "error", activities := [], projects := [] }) ∧
      ((∃ e ∈ (parseFromString xmlBackupContents "text/xml").getElementsByTagName "activity",
          e.attribute "id" = none ∨ e.attribute "start" = none ∨ e.attribute "end" = none ∨
            e.attribute "projectReference" = none) →
        readXml parseFromString momentParse xmlBackupContents =
          { status := "error", activities := [], projects := [] }) := by
  have hnone := readXml_of_try_none parseFromString momentParse xmlBackupContents
  refine ⟨?_, ?_, hnone, ?_, ?_⟩
  · cases htry : readXmlTry parseFromString momentParse xmlBackupContents with
    | none => exact Or.inr (hnone htry)
    | some result =>
      left
      simp only [readXml, htry]
      by_cases hwf : (parseFromString xmlBackupContents "text/xml").getElementsByTagName
          "parsererror" = []
      · rw [readXmlTry_of_wellFormed _ _ _ hwf] at htry
        cases hp : ((parseFromString xmlBackupContents "text/xml").getElementsByTagName
            "project").mapM readProject with
        | none => rw [hp] at htry; cases htry
        | some projects =>
          cases ha : ((parseFromString xmlBackupContents "text/xml").getElementsByTagName
              "activity").mapM (readActivity momentParse projects) with
          | none => rw [hp] at htry; simp only [Option.bind] at htry; rw [ha] at htry; cases htry
          | some activities =>
            rw [hp] at htry
            simp only [Option.bind] at htry
            rw [ha] at htry
            simp only [Option.some.injEq] at htry
            rw [← htry]
      · have hlen : (((parseFromString xmlBackupContents "text/xml").getElementsByTagName
            "parsererror").length > 0) := List.length_pos.mpr hwf
        simp [readXmlTry, hlen] at htry
  · intro herr
    apply hnone
    have hlen : (((parseFromString xmlBackupContents "text/xml").getElementsByTagName
        "parsererror").length > 0) := List.length_pos.mpr herr
    simp [readXmlTry, hlen]
  · intro hbad
    apply hnone
    by_cases hwf : (parseFromString xmlBackupContents "text/xml").getElementsByTagName
        "parsererror" = []
    · rw [readXmlTry_of_wellFormed _ _ _ hwf]
      obtain ⟨e, he, hmiss⟩ := hbad
      rw [mapM_option_eq_none readProject _ ⟨e, he, readProject_eq_none e hmiss⟩]
      rfl
    · have hlen : (((parseFromString xmlBackupContents "text/xml").getElementsByTagName
          "parsererror").length > 0) := List.length_pos.mpr hwf
      simp [readXmlTry, hlen]
  · intro hbad
    apply hnone
    by_cases hwf : (parseFromString xmlBackupContents "text/xml").getElementsByTagName
        "parsererror" = []
    · rw [readXmlTry_of_wellFormed _ _ _ hwf]
      obtain ⟨e, he, hmiss⟩ := hbad
      cases hp : ((parseFromString xmlBackupContents "text/xml").getElementsByTagName
          "project").mapM readProject with
      | none => rfl
      | some projects =>
        simp only [Option.bind]
        rw [mapM_option_eq_none (readActivity momentParse projects) _
          ⟨e, he, readActivity_eq_none momentParse projects e hmiss⟩]
    · have hlen : (((parseFromString xmlBackupContents "text/xml").getElementsByTagName
          "parsererror").length > 0) := List.length_pos.mpr hwf
      simp [readXmlTry, hlen]

theorem readProject_ne_none (e : Node)
    (h : e.attribute "id" ≠ none ∧ (∃ c ∈ e.childNodes, c.tagName = some "title") ∧
      (∃ c ∈ e.childNodes, c.tagName = some "description")) : readProject e ≠ none := by
  obtain ⟨hid, htitle, hdesc⟩ := h
  have ht := elementsNamedIn_ne_nil "title" e.childNodes htitle
  have hd := elementsNamedIn_ne_nil "description" e.childNodes hdesc
  unfold readProject Node.getElementsByTagName
  cases hi : e.attribute "id" with
  | none => exact absurd hi hid
  | some id =>
    cases ht2 : Node.elementsNamedIn "title" e.childNodes with
    | nil => exact absurd ht2 ht
    | cons t ts =>
      cases hd2 : Node.elementsNamedIn "description" e.childNodes with
      | nil => exact absurd hd2 hd
      | cons d ds => simp

theorem readProject_id (e : Node) (p : Project) (h : readProject e = some p) :
    some p.id = e.attribute "id" := by
  unfold readProject at h
  cases hi : e.attribute "id" with
  | none => rw [hi] at h; cases h
  | some id =>
    cases ht : (e.getElementsByTagName "title").head? with
    | none => rw [hi, ht] at h; cases h
    | some t =>
      cases hd : (e.getElementsByTagName "description").head? with
      | none => rw [hi, ht, hd] at h; cases h
      | some d =>
        rw [hi, ht, hd] at h
        simp only [bind, Option.bind, pure, Option.some.injEq] at h
        rw [← h]

theorem readActivity_ne_none (momentParse : String → String → Moment)
    (projects : List Project) (e : Node)
    (h : e.attribute "id" ≠ none ∧ e.attribute "start" ≠ none ∧ e.attribute "end" ≠ none ∧
      e.attribute "projectReference" ≠ none) :
    readActivity momentParse projects e ≠ none := by
  obtain ⟨hid, hstart, hend, href⟩ := h
  unfold readActivity
  cases hs : e.attribute "start" with
  | none => exact absurd hs hstart
  | some s =>
    cases he : e.attribute "end" with
    | none => exact absurd he hend
    | some en =>
      cases hp : e.attribute "projectReference" with
      | none => exact absurd hp href
      | some p =>
        cases hi : e.attribute "id" with
        | none => exact absurd hi hid
        | some i => simp

theorem readActivity_fields (momentParse : String → String → Moment)
    (projects : List Project) (e : Node) (a : Activity)
    (h : readActivity momentParse projects e = some a) :
    some a.id = e.attribute "id" ∧
      a.project = projects.find? (fun p => some p.id = e.attribute "projectReference") ∧
      a.description = none ∧
      some a.startTime = (e.attribute "start").map (fun s => momentParse s "yyyy-MM-DDTHH:mm") ∧
      some a.endTime = (e.attribute "end").map (fun s => momentParse s "yyyy-MM-DDTHH:mm") := by
  unfold readActivity at h
  cases hs : e.attribute "start" with
  | none => rw [hs] at h; cases h
  | some s =>
    cases he : e.attribute "end" with
    | none => rw [hs, he] at h; cases h
    | some en =>
      cases hp : e.attribute "projectReference" with
      | none => rw [hs, he, hp] at h; cases h
      | some p =>
        cases hi : e.attribute "id" with
        | none => rw [hs, he, hp, hi] at h; cases h
        | some i =>
          rw [hs, he, hp, hi] at h
          simp only [bind, Option.bind, pure, Option.some.injEq] at h
          rw [← h]
          simp

/-- C7: when the parsed document holds no `parsererror` element, every
`project` element has an `id` attribute and `title` and `description`
children, and every `activity` element has `id`, `start`, `end` and
`projectReference` attributes, `readXml` returns status "ok" with one project
per `project` element and one activity per `activity` element, both in
document order, and each activity's project is the first read project whose
id is the activity's `projectReference`, or `undefined` when there is none. -/
theorem readXml_ok (parseFromString : String → String → Document)
    (momentParse : String → String → Moment) (xmlBackupContents : String)
    (hwf : (parseFromString xmlBackupContents "text/xml").getElementsByTagName
      "parsererror" = [])
    (hprojects : ∀ e ∈ (parseFromString xmlBackupContents "text/xml").getElementsByTagName
      "project", e.attribute "id" ≠ none ∧ (∃ c ∈ e.childNodes, c.tagName = some "title") ∧
        (∃ c ∈ e.childNodes, c.tagName = some "description"))
    (hactivities : ∀ e ∈ (parseFromString xmlBackupContents "text/xml").getElementsByTagName
      "activity", e.attribute "id" ≠ none ∧ e.attribute "start" ≠ none ∧
        e.attribute "end" ≠ none ∧ e.attribute "projectReference" ≠ none) :
    (readXml parseFromString momentParse xmlBackupContents).status = "ok" ∧
      (readXml parseFromString momentParse xmlBackupContents).projects.map
          (fun p => some p.id) =
        ((parseFromString xmlBackupContents "text/xml").getElementsByTagName "project").map
          (fun e => e.attribute "id") ∧
      (readXml parseFromString momentParse xmlBackupContents).activities.map
          (fun a => some a.id) =
        ((parseFromString xmlBackupContents "text/xml").getElementsByTagName "activity").map
          (fun e => e.attribute "id") ∧
      (readXml parseFromString momentParse xmlBackupContents).activities.map
          (fun a => a.project) =
        ((parseFromString xmlBackupContents "text/xml").getElementsByTagName "activity").map
          (fun e => (readXml parseFromString momentParse xmlBackupContents).projects.find?
            (fun p => some p.id = e.attribute "projectReference")) := by
  obtain ⟨projects, hp, hpmap⟩ := mapM_option_eq_some readProject _
    (fun e he => readProject_ne_none e (hprojects e he))
  obtain ⟨activities, ha, hamap⟩ := mapM_option_eq_some (readActivity momentParse projects) _
    (fun e he => readActivity_ne_none momentParse projects e (hactivities e he))
  have hread : readXml parseFromString momentParse xmlBackupContents =
      { status := "ok", activities := activities, projects := projects } := by
    simp only [readXml]
    rw [readXmlTry_of_wellFormed _ _ _ hwf, hp]
    simp only [Option.bind]
    rw [ha]
  rw [hread]
  refine ⟨rfl, ?_, ?_, ?_⟩
  · exact map_eq_of_map_some (fun p => some p.id) (fun e => e.attribute "id")
      (fun e p h => readProject_id e p h) _ _ hpmap
  · exact map_eq_of_map_some (fun a => some a.id) (fun e => e.attribute "id")
      (fun e a h => (readActivity_fields momentParse projects e a h).1) _ _ hamap
  · exact map_eq_of_map_some (fun a => a.project)
      (fun e => projects.find? (fun p => some p.id = e.attribute "projectReference"))
      (fun e a h => (readActivity_fields momentParse projects e a h).2.1) _ _ hamap

/-! ## Theorems: `stores.js` -/

theorem foldl_add_milliseconds (rest : List Duration) (first : Duration) :
    (rest.foldl (fun total currentValue => total.add currentValue) first).milliseconds =
      first.milliseconds + (rest.map Duration.milliseconds).sum := by
  induction rest generalizing first with
  | nil => simp
  | cons d ds ih =>
    simp only [List.foldl_cons, List.map_cons, List.sum_cons]
    rw [ih]
    simp only [Duration.add]
    omega

theorem totalDuration_eq (s : Stores) :
    totalDuration s = Duration.ofMilliseconds
      ((s.filteredActivitiesStore.value.map
        (fun a => a.endTime.diff a.startTime)).sum) := by
  unfold totalDuration
  cases h : s.filteredActivitiesStore.value with
  | nil => simp
  | cons a rest =>
    simp only [List.length_cons, Nat.add_one_ne_zero, if_false, List.map_cons, List.sum_cons]
    have := foldl_add_milliseconds
      (rest.map (fun a => Duration.ofMilliseconds (a.endTime.diff a.startTime)))
      (Duration.ofMilliseconds (a.endTime.diff a.startTime))
    simp only [List.map_map] at this
    cases hd : (rest.map (fun a => Duration.ofMilliseconds (a.endTime.diff a.startTime))).foldl
      (fun total currentValue => total.add currentValue)
      (Duration.ofMilliseconds (a.endTime.diff a.startTime)) with
    | mk ms =>
      rw [hd] at this
      simp only [Duration.ofMilliseconds] at this ⊢
      rw [this]
      rfl

theorem runSubscriber_stores (current : String) (subscriber : Subscriber) (s : Stores) :
    (runSubscriber current subscriber s).projectStore = s.projectStore ∧
      (runSubscriber current subscriber s).activitiesStore = s.activitiesStore ∧
      (runSubscriber current subscriber s).filteredActivitiesStore =
        s.filteredActivitiesStore ∧
      (runSubscriber current subscriber s).filterStore = s.filterStore := by
  cases subscriber <;> exact ⟨rfl, rfl, rfl, rfl⟩

theorem notify_stores (current : String) (subscribers : List Subscriber) (s : Stores) :
    (subscribers.foldl (fun acc subscriber => runSubscriber current subscriber acc)
        s).projectStore = s.projectStore ∧
      (subscribers.foldl (fun acc subscriber => runSubscriber current subscriber acc)
        s).activitiesStore = s.activitiesStore ∧
      (subscribers.foldl (fun acc subscriber => runSubscriber current subscriber acc)
        s).filteredActivitiesStore = s.filteredActivitiesStore ∧
      (subscribers.foldl (fun acc subscriber => runSubscriber current subscriber acc)
        s).filterStore = s.filterStore := by
  induction subscribers generalizing s with
  | nil => exact ⟨rfl, rfl, rfl, rfl⟩
  | cons sub rest ih =>
    obtain ⟨h1, h2, h3, h4⟩ := ih (runSubscriber current sub s)
    obtain ⟨k1, k2, k3, k4⟩ := runSubscriber_stores current sub s
    simp only [List.foldl_cons]
    exact ⟨h1.trans k1, h2.trans k2, h3.trans k3, h4.trans k4⟩

theorem projectStore_set_stores (env : Env) (v : List Project) (s : Stores) :
    ((projectStore env).set v s).projectStore = { s.projectStore with value := v } ∧
      ((projectStore env).set v s).activitiesStore = s.activitiesStore ∧
      ((projectStore env).set v s).filteredActivitiesStore = s.filteredActivitiesStore ∧
      ((projectStore env).set v s).filterStore = s.filterStore := by
  unfold StoreRef.set
  exact notify_stores _ _ _

theorem activitiesStore_set_stores (env : Env) (v : List Activity) (s : Stores) :
    ((activitiesStore env).set v s).projectStore = s.projectStore ∧
      ((activitiesStore env).set v s).activitiesStore = { s.activitiesStore with value := v } ∧
      ((activitiesStore env).set v s).filteredActivitiesStore = s.filteredActivitiesStore ∧
      ((activitiesStore env).set v s).filterStore = s.filterStore := by
  unfold StoreRef.set
  exact notify_stores _ _ _

theorem filteredActivitiesStore_set_stores (env : Env) (v : List FilteredActivity)
    (s : Stores) :
    ((filteredActivitiesStore env).set v s).projectStore = s.projectStore ∧
      ((filteredActivitiesStore env).set v s).activitiesStore = s.activitiesStore ∧
      ((filteredActivitiesStore env).set v s).filteredActivitiesStore =
        { s.filteredActivitiesStore with value := v } ∧
      ((filteredActivitiesStore env).set v s).filterStore = s.filterStore := by
  unfold StoreRef.set
  exact notify_stores _ _ _

theorem filterStore_set_stores (env : Env) (v : Filter) (s : Stores) :
    ((filterStore env).set v s).projectStore = s.projectStore ∧
      ((filterStore env).set v s).activitiesStore = s.activitiesStore ∧
      ((filterStore env).set v s).filteredActivitiesStore = s.filteredActivitiesStore ∧
      ((filterStore env).set v s).filterStore = { s.filterStore with value := v } := by
  unfold StoreRef.set
  exact notify_stores _ _ _

theorem projectStore_set_subscriptions (env : Env) (v : List Project) (s : Stores) :
    ((projectStore env).set v s).subscriptions = s.subscriptions := by
  obtain ⟨h1, h2, h3, h4⟩ := projectStore_set_stores env v s
  simp only [Stores.subscriptions, h1, h2, h3, h4]

theorem activitiesStore_set_subscriptions (env : Env) (v : List Activity) (s : Stores) :
    ((activitiesStore env).set v s).subscriptions = s.subscriptions := by
  obtain ⟨h1, h2, h3, h4⟩ := activitiesStore_set_stores env v s
  simp only [Stores.subscriptions, h1, h2, h3, h4]

theorem filteredActivitiesStore_set_subscriptions (env : Env) (v : List FilteredActivity)
    (s : Stores) :
    ((filteredActivitiesStore env).set v s).subscriptions = s.subscriptions := by
  obtain ⟨h1, h2, h3, h4⟩ := filteredActivitiesStore_set_stores env v s
  simp only [Stores.subscriptions, h1, h2, h3, h4]

theorem filterStore_set_subscriptions (env : Env) (v : Filter) (s : Stores) :
    ((filterStore env).set v s).subscriptions = s.subscriptions := by
  obtain ⟨h1, h2, h3, h4⟩ := filterStore_set_stores env v s
  simp only [Stores.subscriptions, h1, h2, h3, h4]

theorem subscribe_subscriptions (env : Env) (run : Subscriber) (s : Stores) :
    ((projectStore env).subscribe run s).subscriptions =
        (s.projectStore.subscribers ++ [run], s.activitiesStore.subscribers,
          s.filteredActivitiesStore.subscribers, s.filterStore.subscribers) ∧
      ((activitiesStore env).subscribe run s).subscriptions =
        (s.projectStore.subscribers, s.activitiesStore.subscribers ++ [run],
          s.filteredActivitiesStore.subscribers, s.filterStore.subscribers) ∧
      ((filteredActivitiesStore env).subscribe run s).subscriptions =
        (s.projectStore.subscribers, s.activitiesStore.subscribers,
          s.filteredActivitiesStore.subscribers ++ [run], s.filterStore.subscribers) ∧
      ((filterStore env).subscribe run s).subscriptions =
        (s.projectStore.subscribers, s.activitiesStore.subscribers,
          s.filteredActivitiesStore.subscribers, s.filterStore.subscribers ++ [run]) := by
  cases run <;> exact ⟨rfl, rfl, rfl, rfl⟩

theorem useLocalStorage_subscriptions (env : Env) (s : Stores) :
    ((projectStore env).useLocalStorage env.parseProjects s).subscriptions =
        (s.projectStore.subscribers ++ [.writeBack "projects"], s.activitiesStore.subscribers,
          s.filteredActivitiesStore.subscribers, s.filterStore.subscribers) ∧
      ((activitiesStore env).useLocalStorage env.parseActivities s).subscriptions =
        (s.projectStore.subscribers, s.activitiesStore.subscribers ++ [.writeBack "activities"],
          s.filteredActivitiesStore.subscribers, s.filterStore.subscribers) ∧
      ((filterStore env).useLocalStorage env.parseFilter s).subscriptions =
        (s.projectStore.subscribers, s.activitiesStore.subscribers,
          s.filteredActivitiesStore.subscribers,
          s.filterStore.subscribers ++ [.writeBack "filter"]) := by
  refine ⟨?_, ?_, ?_⟩
  · unfold StoreRef.useLocalStorage
    cases getTruthyItem s.localStorage (projectStore env).key with
    | none => exact (subscribe_subscriptions env _ s).1
    | some json =>
      have h := projectStore_set_subscriptions env (env.parseProjects json) s
      simp only [Stores.subscriptions, Prod.mk.injEq] at h
      obtain ⟨h1, h2, h3, h4⟩ := h
      rw [(subscribe_subscriptions env _ _).1, h1, h2, h3, h4]
      rfl
  · unfold StoreRef.useLocalStorage
    cases getTruthyItem s.localStorage (activitiesStore env).key with
    | none => exact (subscribe_subscriptions env _ s).2.1
    | some json =>
      have h := activitiesStore_set_subscriptions env (env.parseActivities json) s
      simp only [Stores.subscriptions, Prod.mk.injEq] at h
      obtain ⟨h1, h2, h3, h4⟩ := h
      rw [(subscribe_subscriptions env _ _).2.1, h1, h2, h3, h4]
      rfl
  · unfold StoreRef.useLocalStorage
    cases getTruthyItem s.localStorage (filterStore env).key with
    | none => exact (subscribe_subscriptions env _ s).2.2.2
    | some json =>
      have h := filterStore_set_subscriptions env (env.parseFilter json) s
      simp only [Stores.subscriptions, Prod.mk.injEq] at h
      obtain ⟨h1, h2, h3, h4⟩ := h
      rw [(subscribe_subscriptions env _ _).2.2.2, h1, h2, h3, h4]
      rfl

theorem createWritableStore_subscribers {α : Type} (localStorage : String → Option String)
    (key : String) (startValue : α) (elementInitializer : Option (String → α)) :
    (createWritableStore localStorage key startValue elementInitializer).subscribers = [] := by
  unfold createWritableStore
  cases elementInitializer with
  | none => rfl
  | some parse => cases getTruthyItem localStorage key <;> rfl

theorem wired_of_created (env : Env) (created : Stores)
    (hc : created.subscriptions = ([], [], [], [])) :
    Wired ((filteredActivitiesStore env).subscribe .updateTotalDuration
      { (filterStore env).useLocalStorage env.parseFilter
          ((activitiesStore env).useLocalStorage env.parseActivities
            ((projectStore env).useLocalStorage env.parseProjects created)) with
        totalDurationStore := totalDuration
          ((filterStore env).useLocalStorage env.parseFilter
            ((activitiesStore env).useLocalStorage env.parseActivities
              ((projectStore env).useLocalStorage env.parseProjects created))) }) := by
  simp only [Stores.subscriptions, Prod.mk.injEq] at hc
  obtain ⟨c1, c2, c3, c4⟩ := hc
  have h1 := (useLocalStorage_subscriptions env created).1
  rw [c1, c2, c3, c4] at h1
  generalize (projectStore env).useLocalStorage env.parseProjects created = s1 at h1 ⊢
  simp only [Stores.subscriptions, Prod.mk.injEq] at h1
  obtain ⟨a1, a2, a3, a4⟩ := h1
  have h2 := (useLocalStorage_subscriptions env s1).2.1
  rw [a1, a2, a3, a4] at h2
  generalize (activitiesStore env).useLocalStorage env.parseActivities s1 = s2 at h2 ⊢
  simp only [Stores.subscriptions, Prod.mk.injEq] at h2
  obtain ⟨b1, b2, b3, b4⟩ := h2
  have h3 := (useLocalStorage_subscriptions env s2).2.2
  rw [b1, b2, b3, b4] at h3
  generalize (filterStore env).useLocalStorage env.parseFilter s2 = s3 at h3 ⊢
  simp only [Stores.subscriptions, Prod.mk.injEq] at h3
  obtain ⟨d1, d2, d3, d4⟩ := h3
  unfold Wired
  rw [(subscribe_subscriptions env _ _).2.2.1]
  simp only [d1, d2, d3, d4, List.nil_append]

theorem wired_initStores (env : Env) (localStorage : String → Option String) :
    Wired (initStores env localStorage) := by
  unfold initStores
  apply wired_of_created
  simp only [Stores.subscriptions, createWritableStore_subscribers]

theorem wired_set (env : Env) (s : Stores) (hw : Wired s) :
    (∀ v, Wired ((projectStore env).set v s)) ∧
      (∀ v, Wired ((activitiesStore env).set v s)) ∧
      (∀ v, Wired ((filteredActivitiesStore env).set v s)) ∧
      (∀ v, Wired ((filterStore env).set v s)) := by
  unfold Wired at hw ⊢
  refine ⟨fun v => ?_, fun v => ?_, fun v => ?_, fun v => ?_⟩
  · rw [projectStore_set_subscriptions, hw]
  · rw [activitiesStore_set_subscriptions, hw]
  · rw [filteredActivitiesStore_set_subscriptions, hw]
  · rw [filterStore_set_subscriptions, hw]

theorem wired_applyFilterResponse (env : Env) (filter : Filter) (data : ActivitiesResponse)
    (s : Stores) (hw : Wired s) : Wired (applyFilterResponse env filter data s) := by
  unfold applyFilterResponse
  exact (wired_set env _ ((wired_set env s hw).2.2.1 _)).2.2.2 _

theorem wired_importBackup (env : Env) (dataBackup : XmlResult) (s : Stores) (hw : Wired s) :
    Wired (importBackup env dataBackup s) := by
  unfold importBackup
  exact (wired_set env _ ((wired_set env s hw).1 _)).2.1 _

/-- C4: `totalDuration()` is the duration of the summed differences
`endTime - startTime` over the list held by `filteredActivitiesStore`, the
zero duration when that list is empty; and once the module is wired, a `set`
of `filteredActivitiesStore` stores the new list, leaves `totalDurationStore`
holding that sum for the new list, and keeps the module wired. -/
theorem totalDuration_sum (env : Env) (s : Stores) (hw : Wired s)
    (activities : List FilteredActivity) :
    totalDuration s = Duration.ofMilliseconds
        ((s.filteredActivitiesStore.value.map (fun a => a.endTime.diff a.startTime)).sum) ∧
      totalDuration { s with filteredActivitiesStore :=
        { s.filteredActivitiesStore with value := [] } } = Duration.ofMilliseconds 0 ∧
      ((filteredActivitiesStore env).set activities s).filteredActivitiesStore.value =
        activities ∧
      ((filteredActivitiesStore env).set activities s).totalDurationStore =
        Duration.ofMilliseconds
          ((activities.map (fun a => a.endTime.diff a.startTime)).sum) ∧
      Wired ((filteredActivitiesStore env).set activities s) := by
  refine ⟨totalDuration_eq s, rfl, ?_, ?_, (wired_set env s hw).2.2.1 activities⟩
  · rw [(filteredActivitiesStore_set_stores env activities s).2.2.1]
  · unfold Wired at hw
    simp only [Stores.subscriptions, Prod.mk.injEq] at hw
    obtain ⟨_, _, h3, _⟩ := hw
    simp only [StoreRef.set, filteredActivitiesStore, h3, List.foldl_cons, List.foldl_nil,
      runSubscriber]
    rw [totalDuration_eq]

theorem totalDuration_sum_witness :
    Wired (initStores sampleEnv (fun _ => none)) ∧
      ((filteredActivitiesStore sampleEnv).set sampleFilteredActivities
        (initStores sampleEnv (fun _ => none))).totalDurationStore =
        Duration.ofMilliseconds
          ((sampleFilteredActivities.map (fun a => a.endTime.diff a.startTime)).sum) :=
  ⟨wired_initStores _ _,
    (totalDuration_sum sampleEnv (initStores sampleEnv (fun _ => none))
      (wired_initStores _ _) sampleFilteredActivities).2.2.2.1⟩

theorem totalDuration_two_hours (s : Stores) (utcOffset day : Int)
    (first second : FilteredActivity)
    (hs : s.filteredActivitiesStore.value = [first, second])
    (hfirst : first.startTime = Moment.atTime utcOffset day 9 0 ∧
      first.endTime = Moment.atTime utcOffset day 10 30)
    (hsecond : second.startTime = Moment.atTime utcOffset day 10 30 ∧
      second.endTime = Moment.atTime utcOffset day 11 0) :
    totalDuration s = Duration.ofHoursMinutes 2 0 := by
  rw [totalDuration_eq, hs]
  simp only [List.map_cons, List.map_nil, List.sum_cons, List.sum_nil, hfirst.1, hfirst.2,
    hsecond.1, hsecond.2, Moment.diff, Moment.atTime, Duration.ofMilliseconds,
    Duration.ofHoursMinutes]
  congr 1
  omega

theorem sample_store_value :
    ((filteredActivitiesStore sampleEnv).set sampleFilteredActivities
        (initStores sampleEnv (fun _ => none))).filteredActivitiesStore.value =
      sampleFilteredActivities := by
  rw [(filteredActivitiesStore_set_stores sampleEnv sampleFilteredActivities
    (initStores sampleEnv (fun _ => none))).2.2.1]

/-- C9, as amended: when `filteredActivitiesStore` holds exactly the two
activities 09:00 to 10:30 and 10:30 to 11:00 of one day, read on the local
clock of any zone, `totalDuration()` is a duration of 2 hours, which
`formatDuration` prints as "02:00". -/
theorem totalDuration_two_activities (s : Stores) (utcOffset day : Int)
    (first second : FilteredActivity)
    (hs : s.filteredActivitiesStore.value = [first, second])
    (hfirst : first.startTime = Moment.atTime utcOffset day 9 0 ∧
      first.endTime = Moment.atTime utcOffset day 10 30)
    (hsecond : second.startTime = Moment.atTime utcOffset day 10 30 ∧
      second.endTime = Moment.atTime utcOffset day 11 0) :
    totalDuration s = Duration.ofHoursMinutes 2 0 ∧
      formatDuration (totalDuration s) = "02:00" := by
  rw [totalDuration_two_hours s utcOffset day first second hs hfirst hsecond]
  exact ⟨rfl, by decide⟩

theorem totalDuration_two_activities_witness :
    ((filteredActivitiesStore sampleEnv).set sampleFilteredActivities
        (initStores sampleEnv (fun _ => none))).filteredActivitiesStore.value =
        sampleFilteredActivities ∧
      totalDuration ((filteredActivitiesStore sampleEnv).set sampleFilteredActivities
        (initStores sampleEnv (fun _ => none))) = Duration.ofHoursMinutes 2 0 ∧
      formatDuration (totalDuration ((filteredActivitiesStore sampleEnv).set
        sampleFilteredActivities (initStores sampleEnv (fun _ => none)))) = "02:00" :=
  ⟨sample_store_value,
    totalDuration_two_activities _ 0 18567 _ _ sample_store_value ⟨rfl, rfl⟩ ⟨rfl, rfl⟩⟩

/-- C9 fails as stated: with the two activities 09:00 to 10:30 and 10:30 to
11:00 of 2020-11-01 in `filteredActivitiesStore`, `totalDuration()` is 2
hours and not 1 hour 30 minutes. -/
theorem two_activities_total_is_not_90_minutes :
    ((filteredActivitiesStore sampleEnv).set sampleFilteredActivities
        (initStores sampleEnv (fun _ => none))).filteredActivitiesStore.value =
        sampleFilteredActivities ∧
      sampleFilteredActivities.map
          (fun a => (a.startTime.format "YYYY-MM-DD HH:mm", a.endTime.format "HH:mm")) =
        [("2020-11-01 09:00", "10:30"), ("2020-11-01 10:30", "11:00")] ∧
      totalDuration ((filteredActivitiesStore sampleEnv).set sampleFilteredActivities
        (initStores sampleEnv (fun _ => none))) = Duration.ofHoursMinutes 2 0 ∧
      totalDuration ((filteredActivitiesStore sampleEnv).set sampleFilteredActivities
        (initStores sampleEnv (fun _ => none))) ≠ Duration.ofHoursMinutes 1 30 := by
  have htotal := totalDuration_two_hours _ 0 18567 _ _ sample_store_value ⟨rfl, rfl⟩ ⟨rfl, rfl⟩
  refine ⟨sample_store_value, by decide, htotal, ?_⟩
  rw [htotal]
  decide

/-- C10, as amended: once the module is wired, a `set` of `projectStore`,
`activitiesStore` or `filterStore` leaves the JSON encoding of the new value
under the key "projects", "activities" or "filter"; a `set` of
`filteredActivitiesStore`, which never calls `useLocalStorage()`, writes
nothing to the persistence. -/
theorem set_persists (env : Env) (s : Stores) (hw : Wired s) (projects : List Project)
    (activities : List Activity) (filter : Filter) (filtered : List FilteredActivity) :
    ((projectStore env).set projects s).localStorage "projects" =
        some (env.stringifyProjects projects) ∧
      ((activitiesStore env).set activities s).localStorage "activities" =
        some (env.stringifyActivities activities) ∧
      ((filterStore env).set filter s).localStorage "filter" =
        some (env.stringifyFilter filter) ∧
      ((filteredActivitiesStore env).set filtered s).localStorage = s.localStorage := by
  unfold Wired at hw
  simp only [Stores.subscriptions, Prod.mk.injEq] at hw
  obtain ⟨h1, h2, h3, h4⟩ := hw
  refine ⟨?_, ?_, ?_, ?_⟩
  · simp [StoreRef.set, projectStore, h1, runSubscriber, setItem]
  · simp [StoreRef.set, activitiesStore, h2, runSubscriber, setItem]
  · simp [StoreRef.set, filterStore, h4, runSubscriber, setItem]
  · simp [StoreRef.set, filteredActivitiesStore, h3, runSubscriber]

theorem set_persists_witness :
    Wired (initStores sampleEnv (fun _ => none)) ∧
      ((projectStore sampleEnv).set [sampleProject]
          (initStores sampleEnv (fun _ => none))).localStorage "projects" = some "[p1]" ∧
      ((activitiesStore sampleEnv).set [sampleActivity]
          (initStores sampleEnv (fun _ => none))).localStorage "activities" = some "[a1]" ∧
      ((filterStore sampleEnv).set ⟨"week", ⟨0, 0⟩, ⟨0, 0⟩⟩
          (initStores sampleEnv (fun _ => none))).localStorage "filter" = some "filter:week" ∧
      ((filteredActivitiesStore sampleEnv).set sampleFilteredActivities
          (initStores sampleEnv (fun _ => none))).localStorage =
        (initStores sampleEnv (fun _ => none)).localStorage :=
  ⟨wired_initStores _ _,
    set_persists sampleEnv (initStores sampleEnv (fun _ => none)) (wired_initStores _ _)
      [sampleProject] [sampleActivity] ⟨"week", ⟨0, 0⟩, ⟨0, 0⟩⟩ sampleFilteredActivities⟩

theorem initStores_empty_filteredActivities_key (env : Env) :
    (initStores env (fun _ => none)).localStorage "filteredActivities" = none := by
  simp [initStores, StoreRef.useLocalStorage, StoreRef.subscribe, StoreRef.set, projectStore,
    activitiesStore, filterStore, filteredActivitiesStore, createWritableStore, runSubscriber,
    getTruthyItem, setItem]

/-- C10 fails as stated: after the module is loaded on an empty
`localStorage`, a `set` of `filteredActivitiesStore` leaves the key
"filteredActivities" absent, although the JSON encoding of the new value is
"[a1,a2]". -/
theorem filteredActivities_not_persisted :
    ((filteredActivitiesStore sampleEnv).set sampleFilteredActivities
        (initStores sampleEnv (fun _ => none))).localStorage "filteredActivities" = none ∧
      sampleEnv.stringifyFilteredActivities sampleFilteredActivities = "[a1,a2]" ∧
      ((filteredActivitiesStore sampleEnv).set sampleFilteredActivities
        (initStores sampleEnv (fun _ => none))).localStorage "filteredActivities" ≠
        some (sampleEnv.stringifyFilteredActivities sampleFilteredActivities) := by
  have hw := wired_initStores sampleEnv (fun _ => none)
  unfold Wired at hw
  simp only [Stores.subscriptions, Prod.mk.injEq] at hw
  have hls : ((filteredActivitiesStore sampleEnv).set sampleFilteredActivities
      (initStores sampleEnv (fun _ => none))).localStorage =
      (initStores sampleEnv (fun _ => none)).localStorage := by
    simp [StoreRef.set, filteredActivitiesStore, hw.2.2.1, runSubscriber]
  rw [hls, initStores_empty_filteredActivities_key]
  exact ⟨rfl, by decide, by simp⟩

theorem lastIndexOfFrom_spec (c : Char) :
    ∀ (l : List Char) (i found : Int),
      (c ∉ l → lastIndexOfFrom c l i found = found) ∧
        (c ∈ l → ∃ pre post, l = pre ++ c :: post ∧ c ∉ post ∧
          lastIndexOfFrom c l i found = i + pre.length)
  | [], i, found => ⟨fun _ => rfl, fun h => by cases h⟩
  | x :: rest, i, found => by
    obtain ⟨hnot, hmem⟩ := lastIndexOfFrom_spec c rest (i + 1) (if x = c then i else found)
    constructor
    · intro h
      have hx : x ≠ c := fun e => h (e ▸ List.mem_cons_self x rest)
      have hrest : c ∉ rest := fun hc => h (List.mem_cons_of_mem x hc)
      have hfound := hnot hrest
      simp only [hx, if_false] at hfound
      simp only [lastIndexOfFrom, hx, if_false, hfound]
    · intro _
      by_cases hrest : c ∈ rest
      · obtain ⟨pre, post, hl, hpost, hres⟩ := hmem hrest
        refine ⟨x :: pre, post, by rw [hl]; rfl, hpost, ?_⟩
        simp only [lastIndexOfFrom, hres, List.length_cons]
        push_cast
        omega
      · have hx : x = c := by
          rename_i h
          rcases List.mem_cons.mp h with e | e
          · exact e.symm
          · exact absurd e hrest
        refine ⟨[], rest, by rw [hx]; rfl, hrest, ?_⟩
        have hfound := hnot hrest
        simp only [hx, if_true] at hfound
        simp only [lastIndexOfFrom, hx, if_true, hfound, List.length_nil]
        omega

theorem substring_lastIndexOf (href : String) (c : Char) :
    c ∉ (substring href (lastIndexOf href c + 1)).data ∧
      (href = substring href (lastIndexOf href c + 1) ∨
        ∃ pre : String,
          href = pre ++ String.singleton c ++ substring href (lastIndexOf href c + 1)) := by
  obtain ⟨hnot, hmem⟩ := lastIndexOfFrom_spec c href.data 0 (-1)
  by_cases h : c ∈ href.data
  · obtain ⟨pre, post, hl, hpost, hres⟩ := hmem h
    have hsub : substring href (lastIndexOf href c + 1) = String.mk post := by
      simp only [substring, lastIndexOf, hres]
      have : ((0 : Int) + (pre.length : Int) + 1).toNat = pre.length + 1 := by omega
      rw [this, hl]
      simp
    rw [hsub]
    refine ⟨hpost, Or.inr ⟨String.mk pre, ?_⟩⟩
    apply String.ext
    simp [hl, String.singleton]
  · have hsub : substring href (lastIndexOf href c + 1) = href := by
      simp only [substring, lastIndexOf, hnot h]
      rfl
    rw [hsub]
    exact ⟨h, Or.inl rfl⟩

theorem applyFilterResponse_value (env : Env) (filter : Filter) (data : ActivitiesResponse)
    (s : Stores) :
    (applyFilterResponse env filter data s).filteredActivitiesStore.value =
        ((data._embedded.map (·.activities)).getD []).map
          (reshapeActivity env
            (((data._embedded.map (·.projects)).getD []).map reshapeProject)) ∧
      (applyFilterResponse env filter data s).filterStore.value = filter := by
  unfold applyFilterResponse
  rw [(filterStore_set_stores env _ _).2.2.1, (filterStore_set_stores env _ _).2.2.2,
    (filteredActivitiesStore_set_stores env _ _).2.2.1]
  cases data._embedded <;> exact ⟨rfl, rfl⟩

/-- C8: on a successful response `applyFilter(filter)` sets
`filteredActivitiesStore` to one activity per embedded activity, in response
order (none when nothing is embedded), each with the id, the description and
the parsed start and end of its embedded activity and with, as project, the
reshaping (id, title, active flag and description copied) of the first
embedded project whose id is the part of `_links.project.href` after its last
"/" (the whole `href` when it has no "/"), or `undefined` when no embedded
project has that id; `filterStore` then holds the filter. -/
theorem applyFilterResponse_projects (env : Env) (filter : Filter)
    (data : ActivitiesResponse) (s : Stores) :
    List.Forall₂
        (fun (a : FilteredActivity) (e : EmbeddedActivity) =>
          a.id = e.id ∧ a.description = e.description ∧
            a.startTime = env.moment e.start ∧ a.endTime = env.moment e.end ∧
            ∃ projectId : String, '/' ∉ projectId.data ∧
              (e.href = projectId ∨ ∃ pre : String, e.href = pre ++ "/" ++ projectId) ∧
              a.project =
                (((data._embedded.map (·.projects)).getD []).find?
                  (fun p => p.id = projectId)).map
                  (fun p => ({ id := p.id, title := p.title, active := p.active,
                               description := p.description } : FilterProject)))
        (applyFilterResponse env filter data s).filteredActivitiesStore.value
        ((data._embedded.map (·.activities)).getD []) ∧
      (applyFilterResponse env filter { _embedded := none } s).filteredActivitiesStore.value =
        [] ∧
      (applyFilterResponse env filter data s).filterStore.value = filter := by
  refine ⟨?_, (applyFilterResponse_value env filter ⟨none⟩ s).1,
    (applyFilterResponse_value env filter data s).2⟩
  rw [(applyFilterResponse_value env filter data s).1, List.forall₂_map_left_iff,
    List.forall₂_same]
  intro e _
  refine ⟨rfl, rfl, rfl, rfl, substring e.href (lastIndexOf e.href '/' + 1),
    (substring_lastIndexOf e.href '/').1, (substring_lastIndexOf e.href '/').2, ?_⟩
  simp only [reshapeActivity, List.find?_map]
  rfl

theorem sampleResponse_value :
    (applyFilterResponse sampleEnv ⟨"year", ⟨0, 0⟩, ⟨0, 0⟩⟩ sampleResponse
        (initStores sampleEnv (fun _ => none))).filteredActivitiesStore.value =
      [{ id := "a1", description := some "Design review", startTime := ⟨0, 0⟩,
         endTime := ⟨0, 0⟩,
         project := some { id := "p1", title := "Baralga", active := true,
                           description := some "Time tracking" } },
       { id := "a2", description := none, startTime := ⟨0, 0⟩, endTime := ⟨0, 0⟩,
         project := none },
       { id := "a3", description := none, startTime := ⟨0, 0⟩, endTime := ⟨0, 0⟩,
         project := some { id := "p1", title := "Baralga", active := true,
                           description := some "Time tracking" } }] := by
  rw [(applyFilterResponse_value _ _ _ _).1]
  decide

theorem applyFilterResponse_projects_witness :
    (applyFilterResponse sampleEnv ⟨"year", ⟨0, 0⟩, ⟨0, 0⟩⟩ sampleResponse
        (initStores sampleEnv (fun _ => none))).filteredActivitiesStore.value =
      [{ id := "a1", description := some "Design review", startTime := ⟨0, 0⟩,
         endTime := ⟨0, 0⟩,
         project := some { id := "p1", title := "Baralga", active := true,
                           description := some "Time tracking" } },
       { id := "a2", description := none, startTime := ⟨0, 0⟩, endTime := ⟨0, 0⟩,
         project := none },
       { id := "a3", description := none, startTime := ⟨0, 0⟩, endTime := ⟨0, 0⟩,
         project := some { id := "p1", title := "Baralga", active := true,
                           description := some "Time tracking" } }] ∧
      (List.Forall₂
        (fun (a : FilteredActivity) (e : EmbeddedActivity) =>
          a.id = e.id ∧ a.description = e.description ∧
            a.startTime = sampleEnv.moment e.start ∧ a.endTime = sampleEnv.moment e.end ∧
            ∃ projectId : String, '/' ∉ projectId.data ∧
              (e.href = projectId ∨ ∃ pre : String, e.href = pre ++ "/" ++ projectId) ∧
              a.project =
                (((sampleResponse._embedded.map (·.projects)).getD []).find?
                  (fun p => p.id = projectId)).map
                  (fun p => ({ id := p.id, title := p.title, active := p.active,
                               description := p.description } : FilterProject)))
        (applyFilterResponse sampleEnv ⟨"year", ⟨0, 0⟩, ⟨0, 0⟩⟩ sampleResponse
          (initStores sampleEnv (fun _ => none))).filteredActivitiesStore.value
        ((sampleResponse._embedded.map (·.activities)).getD []) ∧
      (applyFilterResponse sampleEnv ⟨"year", ⟨0, 0⟩, ⟨0, 0⟩⟩ { _embedded := none }
        (initStores sampleEnv (fun _ => none))).filteredActivitiesStore.value = [] ∧
      (applyFilterResponse sampleEnv ⟨"year", ⟨0, 0⟩, ⟨0, 0⟩⟩ sampleResponse
        (initStores sampleEnv (fun _ => none))).filterStore.value =
        ⟨"year", ⟨0, 0⟩, ⟨0, 0⟩⟩) :=
  ⟨sampleResponse_value,
    applyFilterResponse_projects sampleEnv ⟨"year", ⟨0, 0⟩, ⟨0, 0⟩⟩ sampleResponse
      (initStores sampleEnv (fun _ => none))⟩

theorem mapM_option_mem {α β : Type} (f : α → Option β) :
    ∀ (l : List α) (r : List β), l.mapM f = some r → ∀ b ∈ r, ∃ a ∈ l, f a = some b
  | [], r, h, b, hb => by
    simp only [List.mapM_nil, pure, Option.some.injEq] at h
    rw [← h] at hb
    cases hb
  | a :: rest, r, h, b, hb => by
    rw [List.mapM_cons] at h
    cases hfa : f a with
    | none => rw [hfa] at h; cases h
    | some b0 =>
      cases hrest : rest.mapM f with
      | none => rw [hfa, hrest] at h; cases h
      | some r0 =>
        rw [hfa, hrest] at h
        simp only [bind, Option.bind, pure, Option.some.injEq] at h
        rw [← h] at hb
        rcases List.mem_cons.mp hb with e | hb0
        · exact ⟨a, List.mem_cons_self a rest, by rw [hfa, e]⟩
        · obtain ⟨x, hx, hfx⟩ := mapM_option_mem f rest r0 hrest b hb0
          exact ⟨x, List.mem_cons_of_mem a hx, hfx⟩

theorem readXml_activity_description (parseFromString : String → String → Document)
    (momentParse : String → String → Moment) (xmlBackupContents : String) :
    ∀ a ∈ (readXml parseFromString momentParse xmlBackupContents).activities,
      a.description = none := by
  intro a ha
  unfold readXml at ha
  cases htry : readXmlTry parseFromString momentParse xmlBackupContents with
  | none => rw [htry] at ha; cases ha
  | some result =>
    rw [htry] at ha
    simp only at ha
    by_cases hwf : (parseFromString xmlBackupContents "text/xml").getElementsByTagName
        "parsererror" = []
    · rw [readXmlTry_of_wellFormed _ _ _ hwf] at htry
      cases hp : ((parseFromString xmlBackupContents "text/xml").getElementsByTagName
          "project").mapM readProject with
      | none => rw [hp] at htry; cases htry
      | some projects =>
        rw [hp] at htry
        simp only [Option.bind] at htry
        cases hacts : ((parseFromString xmlBackupContents "text/xml").getElementsByTagName
            "activity").mapM (readActivity momentParse projects) with
        | none => rw [hacts] at htry; cases htry
        | some activities =>
          rw [hacts] at htry
          simp only [Option.some.injEq] at htry
          rw [← htry] at ha
          obtain ⟨e, _, he⟩ := mapM_option_mem _ _ _ hacts a ha
          exact (readActivity_fields momentParse projects e a he).2.2.1
    · have hlen : (((parseFromString xmlBackupContents "text/xml").getElementsByTagName
          "parsererror").length > 0) := List.length_pos.mpr hwf
      simp [readXmlTry, hlen] at htry

set_option maxRecDepth 100000 in
/-- C1 fails on the code: for the sample project and the sample activity,
whose description is "Design review", `createXml` writes the description into
the XML text, but `readXml` of the document that text denotes returns the
activity without a description; no activity `readXml` returns ever has one. -/
theorem readXml_loses_activity_description :
    (createXml [sampleActivity] [sampleProject]).map Blob.text = some
        ("<?xml version=\"1.0\" encoding=\"UTF-8\" standalone=\"no\"?>" ++
          "<baralga version=\"1\"><projects><project active=\"true\" id=\"p1\">" ++
          "<title>Baralga</title><description>Time tracking</description></project>" ++
          "</projects><activities><activity id=\"a1\" projectReference=\"p1\" " ++
          "start=\"2020-11-01T09:00\" end=\"2020-11-01T10:30\">" ++
          "<description>Design review</description></activity></activities></baralga>") ∧
      (createXmlDocument [sampleActivity] [sampleProject]).map serializeToString =
        some (serializeToString sampleDocument) ∧
      (∀ (momentParse : String → String → Moment) (xmlBackupContents : String),
        readXml (fun _ _ => sampleDocument) momentParse xmlBackupContents =
          { status := "ok",
            activities := [{
              id := "a1", description := none,
              startTime := momentParse "2020-11-01T09:00" "yyyy-MM-DDTHH:mm",
              endTime := momentParse "2020-11-01T10:30" "yyyy-MM-DDTHH:mm",
              project := some { id := "p1", name := "Baralga",
                                description := some "Time tracking", active := none } }],
            projects := [{ id := "p1", name := "Baralga",
                           description := some "Time tracking", active := none }] }) ∧
      (∀ (parseFromString : String → String → Document)
          (momentParse : String → String → Moment) (xmlBackupContents : String),
        ∀ a ∈ (readXml parseFromString momentParse xmlBackupContents).activities,
          a.description = none) := by
  refine ⟨by decide, by rfl, ?_, readXml_activity_description⟩
  intro momentParse xmlBackupContents
  rfl

theorem mapM_map_option {α β γ : Type} (h : α → β) (f : β → Option γ) (k : α → γ) :
    ∀ l : List α, (∀ a ∈ l, f (h a) = some (k a)) → (l.map h).mapM f = some (l.map k)
  | [], _ => rfl
  | a :: rest, hl => by
    have ha := hl a (List.mem_cons_self a rest)
    have hrest := mapM_map_option h f k rest (fun b hb => hl b (List.mem_cons_of_mem a hb))
    rw [List.map_cons, List.mapM_cons, ha, hrest]
    rfl

theorem elementsNamedIn_append (name : String) (xs ys : List Node) :
    Node.elementsNamedIn name (xs ++ ys) =
      Node.elementsNamedIn name xs ++ Node.elementsNamedIn name ys := by
  induction xs with
  | nil => simp [Node.elementsNamedIn]
  | cons x rest ih => simp [Node.elementsNamedIn, ih]

theorem elementsNamed_descriptionElement (name : String) (hname : name ≠ "description")
    (description : Option String) :
    Node.elementsNamed name (descriptionElement description) = [] := by
  have hne : ¬ ("description" = name) := fun e => hname e.symm
  unfold descriptionElement
  cases description with
  | none => simp [Node.elementsNamed, Node.elementsNamedIn, hne]
  | some text =>
    by_cases ht : text = ""
    · simp [ht, Node.elementsNamed, Node.elementsNamedIn, hne]
    · simp [ht, Node.elementsNamed, Node.elementsNamedIn, hne]

theorem innerHTML_descriptionElement (description : Option String) :
    (descriptionElement description).innerHTML = escapeText (description.getD "") := by
  unfold descriptionElement
  cases description with
  | none => rfl
  | some text =>
    by_cases ht : text = ""
    · simp [ht, Node.innerHTML, Node.childNodes, Node.serializeAll]
      rfl
    · simp [ht, Node.innerHTML, Node.childNodes, Node.serializeAll, Node.serialize]

theorem elementsNamed_projectElement (project : Project) :
    Node.elementsNamed "project" (projectElement project) = [projectElement project] ∧
      Node.elementsNamed "activity" (projectElement project) = [] ∧
      Node.elementsNamed "parsererror" (projectElement project) = [] := by
  have h1 := elementsNamed_descriptionElement "project" (by decide) project.description
  have h2 := elementsNamed_descriptionElement "activity" (by decide) project.description
  have h3 := elementsNamed_descriptionElement "parsererror" (by decide) project.description
  refine ⟨?_, ?_, ?_⟩ <;>
    simp [projectElement, Node.elementsNamed, Node.elementsNamedIn, h1, h2, h3]

theorem elementsNamedIn_projectElements (projects : List Project) :
    Node.elementsNamedIn "project" (projects.map projectElement) =
        projects.map projectElement ∧
      Node.elementsNamedIn "activity" (projects.map projectElement) = [] ∧
      Node.elementsNamedIn "parsererror" (projects.map projectElement) = [] := by
  induction projects with
  | nil => exact ⟨rfl, rfl, rfl⟩
  | cons p rest ih =>
    obtain ⟨h1, h2, h3⟩ := elementsNamed_projectElement p
    obtain ⟨i1, i2, i3⟩ := ih
    simp [Node.elementsNamedIn, h1, h2, h3, i1, i2, i3]

theorem readProject_projectElement (project : Project) :
    readProject (projectElement project) = some
      { id := project.id, name := escapeText project.name,
        description := some (escapeText (project.description.getD "")), active := none } := by
  have hd := elementsNamed_descriptionElement "title" (by decide) project.description
  have hi := innerHTML_descriptionElement project.description
  have hdesc : Node.elementsNamed "description" (descriptionElement project.description) =
      [descriptionElement project.description] := by
    unfold descriptionElement
    cases project.description with
    | none => simp [Node.elementsNamed, Node.elementsNamedIn]
    | some text =>
      by_cases ht : text = ""
      · simp [ht, Node.elementsNamed, Node.elementsNamedIn]
      · simp [ht, Node.elementsNamed, Node.elementsNamedIn]
  have htitle : (Node.element "title" [] [.text project.name]).innerHTML =
      escapeText project.name := by
    simp [Node.innerHTML, Node.childNodes, Node.serializeAll, Node.serialize]
  have hchildren : (projectElement project).childNodes =
      [.element "title" [] [.text project.name], descriptionElement project.description] := rfl
  have hid : (projectElement project).attribute "id" = some project.id := by
    simp [projectElement, Node.attribute]
  unfold readProject Node.getElementsByTagName
  rw [hid, hchildren]
  simp only [Node.elementsNamedIn, Node.elementsNamed, hd, hdesc, List.append_nil]
  simp [htitle, hi]

theorem elementsNamed_activityElementFor (activity : Activity) (projectId : String) :
    Node.elementsNamed "activity" (activityElementFor activity projectId) =
        [activityElementFor activity projectId] ∧
      Node.elementsNamed "project" (activityElementFor activity projectId) = [] ∧
      Node.elementsNamed "parsererror" (activityElementFor activity projectId) = [] := by
  have h1 := elementsNamed_descriptionElement "project" (by decide) activity.description
  have h2 := elementsNamed_descriptionElement "activity" (by decide) activity.description
  have h3 := elementsNamed_descriptionElement "parsererror" (by decide) activity.description
  refine ⟨?_, ?_, ?_⟩ <;>
    simp [activityElementFor, Node.elementsNamed, Node.elementsNamedIn, h1, h2, h3]

theorem elementsNamedIn_activityElements (activities : List Activity)
    (projectId : Activity → String) :
    Node.elementsNamedIn "activity"
        (activities.map (fun a => activityElementFor a (projectId a))) =
        activities.map (fun a => activityElementFor a (projectId a)) ∧
      Node.elementsNamedIn "project"
        (activities.map (fun a => activityElementFor a (projectId a))) = [] ∧
      Node.elementsNamedIn "parsererror"
        (activities.map (fun a => activityElementFor a (projectId a))) = [] := by
  induction activities with
  | nil => exact ⟨rfl, rfl, rfl⟩
  | cons a rest ih =>
    obtain ⟨h1, h2, h3⟩ := elementsNamed_activityElementFor a (projectId a)
    obtain ⟨i1, i2, i3⟩ := ih
    simp [Node.elementsNamedIn, h1, h2, h3, i1, i2, i3]

theorem readActivity_activityElementFor (momentParse : String → String → Moment)
    (projects : List Project) (activity : Activity) (projectId : String) :
    readActivity momentParse projects (activityElementFor activity projectId) = some
      { id := activity.id, description := none,
        startTime := momentParse (activity.startTime.format "yyyy-MM-DDTHH:mm")
          "yyyy-MM-DDTHH:mm",
        endTime := momentParse (activity.endTime.format "yyyy-MM-DDTHH:mm")
          "yyyy-MM-DDTHH:mm",
        project := projects.find? (fun p => p.id = projectId) } := by
  simp [readActivity, activityElementFor, Node.attribute]

theorem createXmlDocument_eq (activities : List Activity) (projects : List Project)
    (hprojects : ∀ a ∈ activities, a.project ≠ none) :
    createXmlDocument activities projects = some
      ⟨.element "baralga" [("version", "1")]
        [.element "projects" [] (projects.map projectElement),
         .element "activities" []
          (activities.map (fun a =>
            activityElementFor a ((a.project.map Project.id).getD "")))]⟩ := by
  have h := mapM_option_eq_map activityElement
    (fun a => activityElementFor a ((a.project.map Project.id).getD "")) activities
    (fun a ha => by
      cases hp : a.project with
      | none => exact absurd hp (hprojects a ha)
      | some p => simp [activityElement, hp])
  unfold createXmlDocument
  rw [h]
  rfl

/-- What `readXml` makes of the text of `createXml(activities, projects)` when
every activity has a project and the XML parser returns the document that
was serialized: status "ok"; the projects in order with their ids, with
name and description as `innerHTML` gives them (the text with `&`, `<` and
`>` escaped, and an empty description for a missing one), and without the
`active` flag; the activities in order with their ids, without description,
with start and end parsed from their formatted text, and with the first
read-back project whose id is that of the activity's project. -/
theorem readXml_createXml (parseFromString : String → String → Document)
    (momentParse : String → String → Moment) (activities : List Activity)
    (projects : List Project) (hprojects : ∀ a ∈ activities, a.project ≠ none) :
    ∃ blob doc, createXml activities projects = some blob ∧
      createXmlDocument activities projects = some doc ∧
      blob.text = xmlDeclaration ++ serializeToString doc ∧
      (parseFromString blob.text "text/xml" = doc →
        readXml parseFromString momentParse blob.text =
          { status := "ok",
            activities := activities.map (fun a =>
              { id := a.id, description := none,
                startTime := momentParse (a.startTime.format "yyyy-MM-DDTHH:mm")
                  "yyyy-MM-DDTHH:mm",
                endTime := momentParse (a.endTime.format "yyyy-MM-DDTHH:mm")
                  "yyyy-MM-DDTHH:mm",
                project := (projects.map (fun p =>
                  ({ id := p.id, name := escapeText p.name,
                     description := some (escapeText (p.description.getD "")),
                     active := none } : Project))).find?
                  (fun p => p.id = (a.project.map Project.id).getD "") }),
            projects := projects.map (fun p =>
              { id := p.id, name := escapeText p.name,
                description := some (escapeText (p.description.getD "")),
                active := none }) }) := by
  have hdoc := createXmlDocument_eq activities projects hprojects
  obtain ⟨p1, p2, p3⟩ := elementsNamedIn_projectElements projects
  obtain ⟨a1, a2, a3⟩ := elementsNamedIn_activityElements activities
    (fun a => (a.project.map Project.id).getD "")
  have hpe : Document.getElementsByTagName
      ⟨.element "baralga" [("version", "1")]
        [.element "projects" [] (projects.map projectElement),
         .element "activities" []
          (activities.map (fun a =>
            activityElementFor a ((a.project.map Project.id).getD "")))]⟩ "project" =
      projects.map projectElement := by
    simp [Document.getElementsByTagName, Node.elementsNamed, Node.elementsNamedIn, p1, a2]
  have hae : Document.getElementsByTagName
      ⟨.element "baralga" [("version", "1")]
        [.element "projects" [] (projects.map projectElement),
         .element "activities" []
          (activities.map (fun a =>
            activityElementFor a ((a.project.map Project.id).getD "")))]⟩ "activity" =
      activities.map (fun a =>
        activityElementFor a ((a.project.map Project.id).getD "")) := by
    simp [Document.getElementsByTagName, Node.elementsNamed, Node.elementsNamedIn, p2, a1]
  have hee : Document.getElementsByTagName
      ⟨.element "baralga" [("version", "1")]
        [.element "projects" [] (projects.map projectElement),
         .element "activities" []
          (activities.map (fun a =>
            activityElementFor a ((a.project.map Project.id).getD "")))]⟩ "parsererror" =
      [] := by
    simp [Document.getElementsByTagName, Node.elementsNamed, Node.elementsNamedIn, p3, a3]
  generalize (⟨.element "baralga" [("version", "1")]
        [.element "projects" [] (projects.map projectElement),
         .element "activities" []
          (activities.map (fun a =>
            activityElementFor a ((a.project.map Project.id).getD "")))]⟩ : Document) = doc
    at hdoc hpe hae hee
  refine ⟨⟨[xmlDeclaration, serializeToString doc], "text/xml;charset=utf-8"⟩, doc, ?_, hdoc,
    ?_, ?_⟩
  · simp only [createXml, hdoc]
    rfl
  · simp [Blob.text, String.join]
  · intro hparse
    have hwf : (parseFromString
        (Blob.text ⟨[xmlDeclaration, serializeToString doc], "text/xml;charset=utf-8"⟩)
        "text/xml").getElementsByTagName "parsererror" = [] := by
      rw [hparse, hee]
    simp only [readXml]
    rw [readXmlTry_of_wellFormed _ _ _ hwf, hparse, hpe, hae]
    rw [mapM_map_option projectElement readProject _ projects
      (fun p _ => readProject_projectElement p)]
    simp only [Option.bind]
    rw [mapM_map_option (fun a => activityElementFor a ((a.project.map Project.id).getD ""))
      (readActivity momentParse _) _ activities
      (fun a _ => readActivity_activityElementFor momentParse _ a _)]

theorem escapeText_of_plain (text : String)
    (hplain : ∀ c ∈ text.data, c ≠ '&' ∧ c ≠ '<' ∧ c ≠ '>') : escapeText text = text := by
  have h : ∀ l : List Char, (∀ c ∈ l, c ≠ '&' ∧ c ≠ '<' ∧ c ≠ '>') →
      l.flatMap escapeTextChar = l := by
    intro l
    induction l with
    | nil => intro _; rfl
    | cons c rest ih =>
      intro hl
      obtain ⟨h1, h2, h3⟩ := hl c (List.mem_cons_self c rest)
      have hrest := ih (fun d hd => hl d (List.mem_cons_of_mem c hd))
      simp [List.flatMap_cons, escapeTextChar, h1, h2, h3, hrest]
  unfold escapeText
  rw [h text.data hplain]

/-- A project name with markup characters is read back escaped: `readXml`
takes the name from `innerHTML`. -/
theorem readProject_escapes_name :
    readProject (projectElement
        { id := "p2", name := "R&D", description := some "a<b", active := some true }) =
      some { id := "p2", name := "R&amp;D", description := some "a&lt;b", active := none } := by
  rw [readProject_projectElement]
  decide

theorem createCsv_text_witness :
    (∀ a ∈ [sampleActivity, nightActivity], a.project ≠ none) ∧
      (createCsv [sampleActivity, nightActivity]).map Blob.text = some
        ("Date;Start;End;Duration;Project;Description\n" ++
          "01.11.2020;09:00;10:30;01:30;Baralga;Design review\n" ++
          "25.10.2020;01:00;04:00;04:00;Baralga;\n") := by
  have h : ∀ a ∈ [sampleActivity, nightActivity], a.project ≠ none := by decide
  refine ⟨h, ?_⟩
  rw [(createCsv_text [sampleActivity, nightActivity] h).1]
  decide

/-- C5 fails as stated: `readXml` returns, with status "ok", an activity
without project for an `activity` element whose `projectReference` matches no
project, and on the list of that activity `createCsv` throws when it reads
`activity.project.name`, so there is no text at all. -/
theorem createCsv_throws_without_project :
    readXml (fun _ _ => orphanDocument) (fun _ _ => ⟨0, 0⟩) "" =
        { status := "ok",
          activities := [{ id := "a9", description := none, startTime := ⟨0, 0⟩,
                           endTime := ⟨0, 0⟩, project := none }],
          projects := [] } ∧
      createCsv (readXml (fun _ _ => orphanDocument) (fun _ _ => ⟨0, 0⟩) "").activities =
        none ∧
      (createCsv (readXml (fun _ _ => orphanDocument)
          (fun _ _ => ⟨0, 0⟩) "").activities).map Blob.text ≠
        some ("Date;Start;End;Duration;Project;Description\n" ++
          "01.01.1970;00:00;00:00;00:00;;\n") := by
  have hread : readXml (fun _ _ => orphanDocument) (fun _ _ => ⟨0, 0⟩) "" =
      { status := "ok",
        activities := [{ id := "a9", description := none, startTime := ⟨0, 0⟩,
                         endTime := ⟨0, 0⟩, project := none }],
        projects := [] } := rfl
  rw [hread]
  exact ⟨rfl, rfl, by decide⟩

theorem readXml_ok_witness :
    sampleDocument.getElementsByTagName "parsererror" = [] ∧
      (∀ e ∈ sampleDocument.getElementsByTagName "project",
        e.attribute "id" ≠ none ∧ (∃ c ∈ e.childNodes, c.tagName = some "title") ∧
          (∃ c ∈ e.childNodes, c.tagName = some "description")) ∧
      (∀ e ∈ sampleDocument.getElementsByTagName "activity",
        e.attribute "id" ≠ none ∧ e.attribute "start" ≠ none ∧
          e.attribute "end" ≠ none ∧ e.attribute "projectReference" ≠ none) ∧
      (readXml (fun _ _ => sampleDocument) (fun _ _ => ⟨0, 0⟩) "").status = "ok" ∧
      (readXml (fun _ _ => sampleDocument) (fun _ _ => ⟨0, 0⟩) "").projects.map
          (fun p => some p.id) = [some "p1"] ∧
      (readXml (fun _ _ => sampleDocument) (fun _ _ => ⟨0, 0⟩) "").activities.map
          (fun a => some a.id) = [some "a1"] := by
  have hwf : sampleDocument.getElementsByTagName "parsererror" = [] := rfl
  have hp : ∀ e ∈ sampleDocument.getElementsByTagName "project",
      e.attribute "id" ≠ none ∧ (∃ c ∈ e.childNodes, c.tagName = some "title") ∧
        (∃ c ∈ e.childNodes, c.tagName = some "description") := by
    intro e he
    have hl : sampleDocument.getElementsByTagName "project" =
        [.element "project" [("active", "true"), ("id", "p1")]
          [.element "title" [] [.text "Baralga"],
           .element "description" [] [.text "Time tracking"]]] := rfl
    rw [hl, List.mem_singleton] at he
    subst he
    exact ⟨by simp [Node.attribute], ⟨_, List.mem_cons_self _ _, rfl⟩,
      ⟨_, List.mem_cons_of_mem _ (List.mem_cons_self _ _), rfl⟩⟩
  have ha : ∀ e ∈ sampleDocument.getElementsByTagName "activity",
      e.attribute "id" ≠ none ∧ e.attribute "start" ≠ none ∧
        e.attribute "end" ≠ none ∧ e.attribute "projectReference" ≠ none := by
    intro e he
    have hl : sampleDocument.getElementsByTagName "activity" =
        [.element "activity"
          [("id", "a1"), ("projectReference", "p1"), ("start", "2020-11-01T09:00"),
           ("end", "2020-11-01T10:30")]
          [.element "description" [] [.text "Design review"]]] := rfl
    rw [hl, List.mem_singleton] at he
    subst he
    simp [Node.attribute]
  have h := readXml_ok (fun _ _ => sampleDocument) (fun _ _ => ⟨0, 0⟩) "" hwf hp ha
  exact ⟨hwf, hp, ha, h.1, h.2.1, h.2.2.1⟩

end Baralga
